import Mathlib

/-!
# Verification of the `cldmigrate_analyzer` core pipeline

This file gives a shallow embedding, in Lean 4, of the parts of the
`cldmigrate_analyzer` repository that the specification's testable
properties talk about:

* the placeholder-variable resolution engine
  (`core/resolution/resolver.py`: `parse_properties_text`,
  `merge_definitions`, `resolve_string`, and the classification part of
  `resolve_repository`);
* the repository scanner and file-kind detector
  (`core/discovery/repo_scanner.py`: `iter_files`, `_detect_type_simple`,
  `scan_repository`) together with the enrichment pass
  (`core/metrics/counts.py`: `compute_counts`);
* the Oozie workflow parser (`core/parsing/oozie/workflow_parser.py`);
* the SQL complexity analyzer
  (`core/extraction/sql_complexity_analyzer.py`);
* the database/schema parser
  (`core/extraction/database_schema_parser.py`).

Python strings are modelled as `String`/`List Char`, Python dicts as
insertion-ordered association lists (`List (String × α)` with an upsert
operation that matches `dict.__setitem__`), and the small regular
expressions used by the source are modelled by explicit, executable
character scanners that follow the Python `re` semantics (left-to-right
non-overlapping matches, ordered alternation, the exact character
classes used).  Recursive scanners take an explicit fuel argument so that
all definitions compute by kernel reduction; fuel is always instantiated
with a bound (the input length) that the scanner never exhausts, since
every recursive call consumes at least one input character.
-/

namespace CldMigrate

/-! ## Basic helpers: Python string primitives -/

/-- Python `\s` / `str.strip()` whitespace characters (ASCII range). -/
def isPyWs (c : Char) : Bool :=
  c = ' ' || c = '\t' || c = '\n' || c = '\x0d' || c = '\x0b' || c = '\x0c'

/-- Python regex `\w` word characters (ASCII subset, as used on these inputs). -/
def isWordChar (c : Char) : Bool :=
  c.isAlphanum || c = '_'

/-- `str.strip()`: drop leading and trailing whitespace. -/
def pyStrip (s : String) : String :=
  String.mk ((s.data.dropWhile isPyWs).reverse.dropWhile isPyWs).reverse

/-- `str.strip(chars)`: drop leading and trailing characters from `chars`. -/
def pyStripChars (chars : List Char) (s : String) : String :=
  String.mk ((s.data.dropWhile (fun c => c ∈ chars)).reverse.dropWhile
    (fun c => c ∈ chars)).reverse

/-- Uppercase a string character-wise (`str.upper()` on ASCII data). -/
def pyUpper (s : String) : String := String.mk (s.data.map Char.toUpper)

/-- Lowercase a string character-wise (`str.lower()` on ASCII data). -/
def pyLower (s : String) : String := String.mk (s.data.map Char.toLower)

/-- Split a character list at every occurrence of a separator character. -/
def splitOnChar (sep : Char) : List Char → List (List Char)
  | [] => [[]]
  | c :: cs =>
    let r := splitOnChar sep cs
    if c = sep then [] :: r
    else
      match r with
      | [] => [[c]]
      | l :: ls => (c :: l) :: ls

/-- Python `str.splitlines()` restricted to the `\n`, `\r\n` and `\r`
terminators that appear in this repository's inputs: split into lines,
with no trailing empty line for a trailing terminator. -/
def pySplitlines (s : String) : List String :=
  let rec go : List Char → List Char → List String
    | acc, [] => if acc = [] then [] else [String.mk acc.reverse]
    | acc, '\n' :: cs => String.mk acc.reverse :: go [] cs
    | acc, '\x0d' :: '\n' :: cs => String.mk acc.reverse :: go [] cs
    | acc, '\x0d' :: cs => String.mk acc.reverse :: go [] cs
    | acc, c :: cs => go (c :: acc) cs
  go [] s.data

/-- `str.split('\n')` (used by the database/schema parser): unlike
`splitlines`, a trailing newline yields a final empty piece. -/
def pySplitNl (s : String) : List String :=
  (splitOnChar '\n' s.data).map String.mk

/-- `str.startswith(pre)` (character-list based, so it computes by
kernel reduction). -/
def strStarts (pre s : String) : Bool :=
  pre.data.isPrefixOf s.data

/-- Python `sub in s` substring containment on character lists. -/
def containsSub (needle : List Char) : List Char → Bool
  | [] => needle = []
  | c :: cs => needle.isPrefixOf (c :: cs) || containsSub needle cs

/-- `str.replace(old, new)` with a nonempty `old`: replace every
non-overlapping occurrence, scanning left to right. -/
def replaceSub (old new : List Char) : List Char → List Char
  | [] => []
  | c :: cs =>
    if old ≠ [] ∧ old.isPrefixOf (c :: cs) then
      new ++ replaceSub old new ((c :: cs).drop old.length)
    else
      c :: replaceSub old new cs
  termination_by cs => cs.length
  decreasing_by
    · simp only [List.length_drop, List.length_cons]
      rename_i h
      have : 0 < old.length := List.length_pos.mpr h.1
      omega
    · simp

/-! ## Python dicts as insertion-ordered association lists -/

/-- `d[k]` lookup: first (and only, by construction) binding of `k`. -/
def dget (d : List (String × α)) (k : String) : Option α :=
  (d.find? (fun kv => kv.1 = k)).map (·.2)

/-- `d[k] = v`: update the existing binding in place, else append —
exactly the insertion-order semantics of a Python `dict`. -/
def dset (d : List (String × α)) (k : String) (v : α) : List (String × α) :=
  match d with
  | [] => [(k, v)]
  | kv :: rest => if kv.1 = k then (k, v) :: rest else kv :: dset rest k v

/-- Append `x` to a list unless it is already present
(the `if key not in unresolved: unresolved.append(key)` idiom). -/
def addUnique (l : List String) (x : String) : List String :=
  if x ∈ l then l else l ++ [x]

/-- Lexicographic comparison of character lists by code point — the
order Python string comparison (and hence `sorted`) uses. -/
def chListLe : List Char → List Char → Bool
  | [], _ => true
  | _ :: _, [] => false
  | a :: as, b :: bs =>
    if a.toNat < b.toNat then true
    else if b.toNat < a.toNat then false
    else chListLe as bs

/-- Python string `<=` (lexicographic by code point). -/
def pyStrLe (a b : String) : Bool := chListLe a.data b.data

/-- Insertion into a sorted list (for modelling Python `sorted`). -/
def sortedInsert (x : String) : List String → List String
  | [] => [x]
  | y :: ys => if pyStrLe x y then x :: y :: ys else y :: sortedInsert x ys

/-- Python `sorted` on a list of strings (insertion sort; stable,
but all call sites sort sets so stability is irrelevant). -/
def pySorted (l : List String) : List String :=
  l.foldr sortedInsert []

/-! ## The `${name}` token scanner

`resolver.py` line 10: `_VAR_RE = re.compile(r"\$\{([^}]+)\}")`.
A match is a literal `${`, then one or more characters other than `}`
(the capture), then `}`.  `_VAR_RE.sub` and `_VAR_RE.findall` scan left
to right producing non-overlapping matches; at a position where `${` is
seen but no capture and closing brace follow, the regex engine advances
one character and retries. -/

/-- Given the characters after a `${`, produce the `[^}]+` capture and
the remainder after the closing `}` (or `none` when the regex does not
match at this position). -/
def splitName (cs : List Char) : Option (List Char × List Char) :=
  match cs.dropWhile (fun c => c ≠ '}') with
  | '}' :: after =>
    let pre := cs.takeWhile (fun c => c ≠ '}')
    if pre = [] then none else some (pre, after)
  | _ => none

/-- One step of the left-to-right `_VAR_RE` scan:
* `none` — the input is exhausted;
* `some (.inl (name, after))` — a token `${name}` starts here, with
  `after` the characters behind its closing brace;
* `some (.inr (c, rest))` — no token starts here; the scan emits `c`
  unchanged and continues with `rest` (this also covers a `${` whose
  capture never closes, where the regex engine advances one character). -/
def scanStep : List Char → Option ((List Char × List Char) ⊕ (Char × List Char))
  | [] => none
  | '$' :: '{' :: rest =>
    match splitName rest with
    | some (name, after) => some (.inl (name, after))
    | none => some (.inr ('$', '{' :: rest))
  | c :: rest => some (.inr (c, rest))

/-- One pass of `_VAR_RE.sub(repl, cur)` together with the `changed`
flag and the `unresolved` accumulator that `repl` threads through it
(`resolver.py` lines 86-105): tokens whose name is in the lookup are
replaced (the replacement is *not* rescanned within the pass), tokens
whose name is absent are kept literally and their name is appended to
`unresolved` if not already there. -/
def subPassF (lk : List (String × String)) :
    Nat → List Char → List String → List Char × Bool × List String
  | 0, cs, un => (cs, false, un)
  | fuel + 1, cs, un =>
    match scanStep cs with
    | none => (cs, false, un)
    | some (.inl (name, after)) =>
      let n := String.mk name
      match dget lk n with
      | some v =>
        let r := subPassF lk fuel after un
        (v.data ++ r.1, true, r.2.2)
      | none =>
        let r := subPassF lk fuel after (addUnique un n)
        ('$' :: '{' :: (name ++ '}' :: r.1), r.2.1, r.2.2)
    | some (.inr (c, rest)) =>
      let r := subPassF lk fuel rest un
      (c :: r.1, r.2.1, r.2.2)

/-- One substitution pass (fuel instantiated with the input length,
which the scan never exhausts: every step consumes at least one input
character, and a token consumes at least four). -/
def subPass (lk : List (String × String)) (cs : List Char)
    (un : List String) : List Char × Bool × List String :=
  subPassF lk cs.length cs un

/-- `_VAR_RE.findall`, returning capture groups in match order. -/
def findAllF : Nat → List Char → List String
  | 0, _ => []
  | fuel + 1, cs =>
    match scanStep cs with
    | none => []
    | some (.inl (name, after)) => String.mk name :: findAllF fuel after
    | some (.inr (_, rest)) => findAllF fuel rest

/-- `_VAR_RE.findall` with fuel instantiated. -/
def findAllTokens (cs : List Char) : List String :=
  findAllF cs.length cs

/-- The `for _ in range(max_depth)` loop of `resolve_string`
(`resolver.py` lines 89-107): run substitution passes until a pass makes
no change or the iteration budget is exhausted. -/
def resolveLoop (lk : List (String × String)) :
    Nat → List Char → List String → List Char × List String
  | 0, cur, un => (cur, un)
  | d + 1, cur, un =>
    let r := subPass lk cur un
    if r.2.1 then resolveLoop lk d r.1 r.2.2 else (r.1, r.2.2)

/-- `resolve_string(s, lookup, max_depth)` (`resolver.py` lines 85-113):
bounded fixed-point substitution, then every placeholder remaining in
the final string is appended to the unresolved list (deduplicated). -/
def resolve_string (s : String) (lookup : List (String × String))
    (max_depth : Nat) : String × List String :=
  let r := resolveLoop lookup max_depth s.data []
  (String.mk r.1, (findAllTokens r.1).foldl addUnique r.2)

/-- `resolve_string` at the default iteration cap `max_depth = 10`. -/
def resolveStringD (s : String) (lookup : List (String × String)) :
    String × List String :=
  resolve_string s lookup 10

/-- Build the literal text `${n}` of a placeholder token. -/
def varToken (n : String) : String := "$\x7b" ++ n ++ "\x7d"

/-! ## `parse_properties_text` (`resolver.py` lines 20-36) -/

/-- The key/value assignment extracted from one raw line of a
properties-style file, or `none` when the line is blank, a comment, has
no separator, or has an empty key.  Splitting is `line.split("=", 1)`
(first separator only), `=` tried before `:`. -/
def propLineKV (raw : String) : Option (String × String) :=
  let line := pyStrip raw
  if line = "" || strStarts "#" line || strStarts "!" line then none
  else if line.data.contains '=' then
    let k := pyStrip (String.mk (line.data.takeWhile (fun c => c ≠ '=')))
    let v := pyStrip (String.mk ((line.data.dropWhile (fun c => c ≠ '=')).drop 1))
    if k = "" then none else some (k, v)
  else if line.data.contains ':' then
    let k := pyStrip (String.mk (line.data.takeWhile (fun c => c ≠ ':')))
    let v := pyStrip (String.mk ((line.data.dropWhile (fun c => c ≠ ':')).drop 1))
    if k = "" then none else some (k, v)
  else none

/-- `parse_properties_text`: fold the per-line assignments into a dict
(`out[k] = v` upserts, so a repeated key keeps its last value). -/
def parse_properties_text (text : String) : List (String × String) :=
  (pySplitlines text).foldl
    (fun out raw =>
      match propLineKV raw with
      | none => out
      | some kv => dset out kv.1 kv.2)
    []

/-! ## `merge_definitions` (`resolver.py` lines 68-82) -/

/-- `VarDef` (`resolver.py` lines 12-17). -/
structure VarDef where
  name : String
  value : String
  defined_in : String
  kind : String
  deriving DecidableEq, Repr

/-- `precedence.get(kind, 0)` for
`precedence = \x7b"properties": 3, "oozie_conf": 2, "maven_props": 1\x7d`. -/
def precedence (kind : String) : Nat :=
  if kind = "properties" then 3
  else if kind = "oozie_conf" then 2
  else if kind = "maven_props" then 1
  else 0

/-- The loop body of `merge_definitions` for one definition `d`:
append `d` to the audit list for its name, and replace the chosen
definition only when `d`'s kind ranks strictly higher. -/
def mergeStep (st : List (String × VarDef) × List (String × List VarDef))
    (d : VarDef) : List (String × VarDef) × List (String × List VarDef) :=
  let all_defs := dset st.2 d.name ((dget st.2 d.name).getD [] ++ [d])
  let chosen :=
    match dget st.1 d.name with
    | none => dset st.1 d.name d
    | some c =>
      if precedence d.kind > precedence c.kind then dset st.1 d.name d else st.1
  (chosen, all_defs)

/-- `merge_definitions(def_lists)`: returns `(chosen, all_defs)`. -/
def merge_definitions (def_lists : List (List VarDef)) :
    List (String × VarDef) × List (String × List VarDef) :=
  def_lists.foldl (fun st defs => defs.foldl mergeStep st) ([], [])

/-! ## The classification part of `resolve_repository`
(`resolver.py` lines 210-320)

`resolve_repository` first builds the definition corpus from the files
on disk (`build_definitions_from_repo`, line 218) and then classifies
every name; the embedding takes that definition corpus as the `defs`
parameter and models the classification.  The in-place rewriting of
findings/workflow/lineage strings (step 2, lines 222-257 of the source)
only produces the `resolved_*` copies and the `unresolved_hits` audit
list; it does not feed the three variable-name sets modelled here. -/

/-- One entry of a findings evidence list (`value`/`file`/`line` keys). -/
structure FindingItem where
  value : Option String
  file : Option String
  line : Option Nat
  deriving DecidableEq, Repr

/-- The findings blob: the four evidence lists that
`resolve_repository` walks (`jdbc_strings`, `urls`, `storage_paths`,
`kafka_bootstrap_hints`). -/
structure RawFindings where
  jdbc_strings : List FindingItem
  urls : List FindingItem
  storage_paths : List FindingItem
  kafka_bootstrap_hints : List FindingItem
  deriving DecidableEq, Repr

/-- A workflow action as consumed by `resolve_repository` (the source
reads the dict keys `main`, `script`, `class`, `args`; `args` is a list
of strings in the parsed workflow JSON).  The Python key `class` is
spelled `cls` here because `class` is a Lean keyword. -/
structure WfAction where
  main : Option String
  script : Option String
  cls : Option String
  args : List String
  deriving DecidableEq, Repr

/-- A workflow record as consumed by `resolve_repository`
(keys `app_path`, `workflow_path`, `source_file`, `actions`). -/
structure Workflow where
  app_path : Option String
  workflow_path : Option String
  source_file : Option String
  actions : List WfAction
  deriving DecidableEq, Repr

/-- A coordinator record; of its fields, the name collection of
`resolve_repository` reads `frequency` and `workflow_app_path`
(`start`/`end`/`timezone` are only rewritten in step 2). -/
structure Coordinator where
  frequency : Option String
  workflow_app_path : Option String
  source_file : Option String
  deriving DecidableEq, Repr

/-- The workflows blob (`workflows` and `coordinators` lists). -/
structure RawWorkflows where
  workflows : List Workflow
  coordinators : List Coordinator
  deriving DecidableEq, Repr

/-- A lineage record as consumed by `resolve_repository`
(keys `source_name`, `target_name`, `evidence_file`). -/
structure LineageRec where
  source_name : Option String
  target_name : Option String
  evidence_file : Option String
  deriving DecidableEq, Repr

/-- `_collect_from_str` on an optional string field: add every
placeholder name found in it (set semantics modelled as ordered
deduplicated insertion). -/
def collectFromStr (acc : List String) : Option String → List String
  | none => acc
  | some s => (findAllTokens s.data).foldl addUnique acc

/-- The `vars_seen` set built at lines 219-253 of `resolver.py`:
placeholder names collected from findings values, workflow fields,
coordinator fields and lineage names.  (In the source this set is
collected but never read afterwards — classification uses only the
defined names — which the claims about the output partition expose.) -/
def collectVarsSeen (raw_findings : RawFindings)
    (raw_workflows : RawWorkflows) (raw_lineage : List LineageRec) :
    List String :=
  let acc := ([] : List String)
  let acc := (raw_findings.jdbc_strings ++ raw_findings.urls ++
      raw_findings.storage_paths ++ raw_findings.kafka_bootstrap_hints).foldl
    (fun a item => collectFromStr a item.value) acc
  let acc := raw_workflows.workflows.foldl
    (fun a wf =>
      let a := collectFromStr a wf.app_path
      wf.actions.foldl
        (fun a act =>
          let a := collectFromStr a act.main
          let a := collectFromStr a act.script
          let a := collectFromStr a act.cls
          act.args.foldl (fun a s => collectFromStr a (some s)) a)
        a)
    acc
  let acc := raw_workflows.coordinators.foldl
    (fun a coord =>
      let a := collectFromStr a coord.frequency
      collectFromStr a coord.workflow_app_path)
    acc
  raw_lineage.foldl
    (fun a rec =>
      let a := collectFromStr a rec.source_name
      collectFromStr a rec.target_name)
    acc

/-- One `\x7b"value": .., "defined_in": .., "kind": ..\x7d` audit entry. -/
structure DefAudit where
  value : String
  defined_in : String
  kind : String
  deriving DecidableEq, Repr

/-- The audit list attached to a name: all candidate definitions. -/
def auditOf (all_defs : List (String × List VarDef)) (k : String) :
    List DefAudit :=
  ((dget all_defs k).getD []).map (fun d => ⟨d.value, d.defined_in, d.kind⟩)

/-- One entry of `resolved_variables`. -/
structure ResolvedVariable where
  name : String
  value : String
  definitions : List DefAudit
  deriving DecidableEq, Repr

/-- One entry of `partially_resolved_variables`. -/
structure PartiallyResolvedVariable where
  name : String
  raw_value : String
  resolved_value : String
  unresolved_parts : List String
  definitions : List DefAudit
  deriving DecidableEq, Repr

/-- One entry of `still_unresolved_variables`. -/
structure UnresolvedVariable where
  name : String
  reason : List String
  definitions_found : List DefAudit
  deriving DecidableEq, Repr

/-- The three variable-name classification lists returned by
`resolve_repository`. -/
structure ResolutionOutput where
  resolved_variables : List ResolvedVariable
  partially_resolved_variables : List PartiallyResolvedVariable
  still_unresolved_variables : List UnresolvedVariable
  deriving DecidableEq, Repr

/-- `all_defs`: the audit side of the merge (`resolver.py` line 219). -/
def allDefsAudit (defs : List VarDef) : List (String × List VarDef) :=
  (merge_definitions [defs]).2

/-- `lookup = \x7bk: v.value for k, v in chosen.items()\x7d`
(`resolver.py` line 220). -/
def winnersLookup (defs : List VarDef) : List (String × String) :=
  (merge_definitions [defs]).1.map (fun kv => (kv.1, kv.2.value))

/-- `sorted(seen)` where — crucially — `seen` receives only the defined
names (`for k in lookup.keys(): seen.add(k)`, lines 256-257 of the
source; the `vars_seen` set collected from findings/workflows/lineage is
never read). -/
def seenNames (defs : List VarDef) : List String :=
  pySorted ((winnersLookup defs).map (fun kv => kv.1))

/-- `final_lookup`/`unresolved_vars` (lines 260-268): every name of
`sorted(seen)` paired with the resolution of its own winner value at the
default cap. -/
def finalEntriesOf (defs : List VarDef) :
    List (String × String × List String) :=
  (seenNames defs).filterMap
    (fun k => (dget (winnersLookup defs) k).map
      (fun v => (k, resolveStringD v (winnersLookup defs))))

/-- `resolved_variables` (lines 270-297): defined names whose resolution
left no unresolved parts. -/
def resolvedVarsOf (defs : List VarDef) : List ResolvedVariable :=
  (finalEntriesOf defs).filterMap
    (fun e => if e.2.2 = [] then
        some (ResolvedVariable.mk e.1 e.2.1 (auditOf (allDefsAudit defs) e.1))
      else none)

/-- `partially_resolved_variables` (lines 270-297): defined names whose
resolution left unresolved parts. -/
def partiallyResolvedOf (defs : List VarDef) :
    List PartiallyResolvedVariable :=
  (finalEntriesOf defs).filterMap
    (fun e => if e.2.2 ≠ [] then
        some (PartiallyResolvedVariable.mk e.1
          ((dget (winnersLookup defs) e.1).getD "") e.2.1 e.2.2
          (auditOf (allDefsAudit defs) e.1))
      else none)

/-- `still_unresolved_variables` (lines 299-312): names of `seen` with
no winner at all.  (Because `seen` holds only defined names, this list
is empty on every input.) -/
def stillUnresolvedOf (defs : List VarDef) : List UnresolvedVariable :=
  (seenNames defs).filterMap
    (fun k => if (dget (winnersLookup defs) k).isNone then
        some (UnresolvedVariable.mk k ["<no_definition_found>"]
          (auditOf (allDefsAudit defs) k))
      else none)

/-- The classification performed by `resolve_repository` (`resolver.py`
lines 210-320) given the definition corpus: merge the definitions, build
the winner lookup, resolve each defined name's own winner value, and
split the names into resolved / partially resolved / still unresolved.
The `vars_seen` set built at lines 219-253 from findings, workflows and
lineage is reproduced here for fidelity, and — exactly as in the
source — never read. -/
def resolveRepositoryCore (defs : List VarDef) (raw_findings : RawFindings)
    (raw_workflows : RawWorkflows) (raw_lineage : List LineageRec) :
    ResolutionOutput :=
  let _vars_seen := collectVarsSeen raw_findings raw_workflows raw_lineage
  ⟨resolvedVarsOf defs, partiallyResolvedOf defs, stillUnresolvedOf defs⟩

/-- The set of variable names referenced anywhere in the corpus, as the
specification describes it: names appearing in definition values, in
finding values, in orchestration-document fields and in lineage table
names.  (Spec-side definition, for comparison with the sets the code
actually returns.) -/
def specReferencedNames (defs : List VarDef) (raw_findings : RawFindings)
    (raw_workflows : RawWorkflows) (raw_lineage : List LineageRec) :
    List String :=
  defs.foldl (fun acc d => (findAllTokens d.value.data).foldl addUnique acc)
    (collectVarsSeen raw_findings raw_workflows raw_lineage)

/-- Empty findings blob (for concrete instances). -/
def noFindings : RawFindings := ⟨[], [], [], []⟩

/-- Empty workflows blob (for concrete instances). -/
def noWorkflows : RawWorkflows := ⟨[], []⟩

/-! ## Merge characterization (for the precedence claim) -/

/-- The effect of one `merge_definitions` step on the chosen definition
for a fixed name `n`. -/
def chooseStep (n : String) (acc : Option VarDef) (d : VarDef) :
    Option VarDef :=
  if d.name = n then
    match acc with
    | none => some d
    | some c => if precedence d.kind > precedence c.kind then some d else some c
  else acc

/-- A definition corpus in which the name `x` is defined both by an
embedded-configuration block and (twice) by properties files, the
embedded-configuration definition coming first in scan order. -/
def c4Defs : List VarDef :=
  [⟨"x", "from_wf", "wf/workflow.xml", "oozie_conf"⟩,
   ⟨"x", "alpha", "conf/app.properties", "properties"⟩,
   ⟨"x", "beta", "conf/other.properties", "properties"⟩,
   ⟨"y", "unrelated", "conf/app.properties", "properties"⟩]

/-- The mutually-cyclic definition corpus for two names. -/
def cycleDefs (A B f1 f2 : String) : List VarDef :=
  [⟨A, varToken B, f1, "properties"⟩, ⟨B, varToken A, f2, "properties"⟩]

/-- Concrete mutually-cyclic corpus used to refute the claim's
"classified as unresolved" wording. -/
def c1Defs : List VarDef := cycleDefs "A" "B" "conf/a.properties" "conf/a.properties"

/-- A corpus in which `A` is defined as `${X}` (with `X` defined
nowhere), a finding value references `${W}`, and a lineage table name
references `${L}`. -/
def c2Defs : List VarDef :=
  [⟨"A", varToken "X", "conf/app.properties", "properties"⟩]

/-- The findings blob of the C2 corpus. -/
def c2Findings : RawFindings :=
  ⟨[⟨some ("jdbc:hive2://" ++ varToken "W" ++ ":10000/db"),
     some "etl/q.sql", some 3⟩], [], [], []⟩

/-- The lineage list of the C2 corpus. -/
def c2Lineage : List LineageRec :=
  [⟨some (varToken "L" ++ ".customers"), none, some "etl/q.sql"⟩]

/-- A three-cycle of definitions; the cap (10 passes, not divisible by
3) leaves the scan mid-cycle, so re-resolving moves one more step. -/
def c6Lookup : List (String × String) :=
  [("A", varToken "B"), ("B", varToken "C"), ("C", varToken "A")]

/-! ## Scanner and classifier (`repo_scanner.py`, `counts.py`) -/

/-- `str.endswith(suf)`. -/
def strEnds (suf s : String) : Bool :=
  suf.data.isSuffixOf s.data

/-- Index of the last occurrence of a character (`str.rfind`), or
`none`. -/
def rfindChar (c : Char) (l : List Char) : Option Nat :=
  l.foldl (fun st p => (st.1 + 1, if p = c then some st.1 else st.2)) (0, none)
    |>.2

/-- `os.path.basename` / `pathlib.Path(...).name`: the part after the
last `/` (POSIX paths throughout). -/
def basename (s : String) : String :=
  String.mk ((s.data.reverse.takeWhile (fun c => c ≠ '/')).reverse)

/-- `pathlib.Path(name).suffix`: `name[i:]` for the last dot index `i`
when `0 < i < len(name) - 1`, else the empty string.  (A leading dot or
a trailing dot yields no suffix.) -/
def pathSuffix (name : String) : String :=
  match rfindChar '.' name.data with
  | none => ""
  | some i =>
    if 0 < i ∧ i < name.data.length - 1 then String.mk (name.data.drop i)
    else ""

/-- The extension part of `os.path.splitext(name)` for a bare filename:
`name[i:]` for the last dot index `i` provided some earlier character of
the name is not a dot, else the empty string. -/
def splitextExt (name : String) : String :=
  match rfindChar '.' name.data with
  | none => ""
  | some i =>
    if (name.data.take i).any (fun c => c ≠ '.') then
      String.mk (name.data.drop i)
    else ""

/-- `_detect_type_simple(full_path)` (`repo_scanner.py` lines 52-109):
the branches appear in exactly the source's order — in particular the
`ext == ".xml"` branch precedes the `name == "pom.xml"` branch, which is
therefore unreachable. -/
def detectTypeSimple (full_path : String) : String :=
  let name := pyLower (basename full_path)
  let ext := pyLower (pathSuffix (basename full_path))
  if name = "workflow.xml" then "oozie_workflow_xml"
  else if name = "coordinator.xml" || strEnds "-coord.xml" name ||
      containsSub "coordinator".data name.data then
    (if ext = ".xml" then "oozie_coordinator_xml" else "xml_generic")
  else if name = "bundle.xml" then "oozie_bundle_xml"
  else if ext = ".properties" || ext = ".props" then "properties"
  else if ext = ".yml" || ext = ".yaml" then "yaml"
  else if ext = ".json" then "json"
  else if ext = ".ini" || ext = ".cfg" || ext = ".conf" then "ini_conf"
  else if ext = ".sql" || ext = ".ddl" || ext = ".dml" then "sql"
  else if ext = ".hql" || ext = ".q" then "hql"
  else if ext = ".pig" then "pig"
  else if ext = ".sh" || ext = ".bash" || ext = ".ksh" then "shell"
  else if ext = ".py" then "python"
  else if ext = ".scala" then "scala"
  else if ext = ".java" then "java"
  else if ext = ".ipynb" then "notebook_jupyter"
  else if ext = ".xml" then "xml_generic"
  else if name = "pom.xml" then "build_maven"
  else if name = "build.gradle" || name = "settings.gradle" then "build_gradle"
  else if name = "build.sbt" then "build_sbt"
  else if name = "requirements.txt" then "build_python_deps"
  else "other"

/-- Membership of a character in an `fnmatch` `[seq]` class body
(literal characters and `a-b` ranges). -/
def classHas (c : Char) : List Char → Bool
  | x :: '-' :: y :: rest =>
    if y = ']' then (c = x || c = '-') && False || (c = x) || classHas c ('-' :: y :: rest)
    else (x.toNat ≤ c.toNat && c.toNat ≤ y.toNat) || classHas c rest
  | x :: rest => c = x || classHas c rest
  | [] => false

/-- Split an `fnmatch` class at its closing `]`; a `]` right at the
start of the body is literal.  Returns the body and the remainder, or
`none` when the class never closes (then `[` is literal). -/
def classSpan (p : List Char) : Option (List Char × List Char) :=
  match p with
  | ']' :: rest =>
    match (rest.takeWhile (fun c => c ≠ ']'), rest.dropWhile (fun c => c ≠ ']')) with
    | (body, ']' :: rest2) => some (']' :: body, rest2)
    | _ => none
  | _ =>
    match (p.takeWhile (fun c => c ≠ ']'), p.dropWhile (fun c => c ≠ ']')) with
    | (body, ']' :: rest2) => some (body, rest2)
    | _ => none

/-- `fnmatch.fnmatchcase` pattern matching: `*` matches any run
(including `/`), `?` any single character, `[seq]`/`[!seq]` a character
class, everything else is literal. -/
def globMatch : Nat → List Char → List Char → Bool
  | 0, _, _ => false
  | _ + 1, [], s => s.isEmpty
  | fuel + 1, '*' :: p, s =>
    globMatch fuel p s ||
      (match s with
       | [] => false
       | _ :: s2 => globMatch fuel ('*' :: p) s2)
  | fuel + 1, '?' :: p, s =>
    (match s with
     | [] => false
     | _ :: s2 => globMatch fuel p s2)
  | fuel + 1, '[' :: p, s =>
    (match p with
     | '!' :: p2 =>
       (match classSpan p2 with
        | some (body, rest) =>
          (match s with
           | [] => false
           | d :: s2 => !classHas d body && globMatch fuel rest s2)
        | none =>
          (match s with
           | [] => false
           | d :: s2 => d = '[' && globMatch fuel p s2))
     | _ =>
       (match classSpan p with
        | some (body, rest) =>
          (match s with
           | [] => false
           | d :: s2 => classHas d body && globMatch fuel rest s2)
        | none =>
          (match s with
           | [] => false
           | d :: s2 => d = '[' && globMatch fuel p s2)))
  | fuel + 1, c :: p, s =>
    (match s with
     | [] => false
     | d :: s2 => c = d && globMatch fuel p s2)

/-- `fnmatch.fnmatch(name, pat)` (case preserved: POSIX `normcase` is
the identity). -/
def fnmatch (name pat : String) : Bool :=
  globMatch (pat.data.length + name.data.length + 1) pat.data name.data

/-- `_match_any(path, patterns)` (`repo_scanner.py` lines 15-19). -/
def matchAny (path : String) (patterns : List String) : Bool :=
  patterns.any (fun pat => fnmatch path pat || fnmatch (basename path) pat)

/-- `ScanConfig` (`repo_scanner.py` lines 7-13). -/
structure ScanConfig where
  include_globs : List String
  exclude_globs : List String
  skip_extensions : List String
  follow_symlinks : Bool
  max_file_bytes : Nat
  deriving Repr

/-- A file on disk: its name, `stat` size, whether `stat` succeeds, and
its text content (`none` when reading raises). -/
structure FsFile where
  name : String
  size : Nat
  statOk : Bool
  content : Option String
  deriving DecidableEq, Repr

/-- A directory tree (the input to `os.walk`). -/
inductive FsDir where
  | mk (name : String) (dirs : List FsDir) (files : List FsFile)

/-- Subdirectories of a directory. -/
def FsDir.dirs : FsDir → List FsDir
  | .mk _ ds _ => ds

/-- Files of a directory. -/
def FsDir.files : FsDir → List FsFile
  | .mk _ _ fs => fs

/-- Name of a directory. -/
def FsDir.dirName : FsDir → String
  | .mk n _ _ => n

/-- `os.path.join(rel_dir, name)` for POSIX relative paths rooted at
`""`. -/
def joinPath (relDir name : String) : String :=
  if relDir = "" then name else relDir ++ "/" ++ name

/-- `iter_files(root, cfg)` (`repo_scanner.py` lines 21-50): a top-down
walk that prunes excluded directories before descending, and yields each
file passing the extension/include/exclude filters whose `stat`
succeeds.  `fuel` bounds the directory depth (the walk of a finite tree
never exhausts it when it is at least the tree height). -/
def iterFiles (cfg : ScanConfig) : Nat → String → FsDir → List (String × FsFile)
  | 0, _, _ => []
  | fuel + 1, relDir, d =>
    let here := d.files.filterMap (fun f =>
      let rel := joinPath relDir f.name
      let ext := pyLower (splitextExt f.name)
      if ext ∈ cfg.skip_extensions then none
      else if cfg.include_globs ≠ [] && !matchAny rel cfg.include_globs then none
      else if matchAny rel cfg.exclude_globs then none
      else if !f.statOk then none
      else some (rel, f))
    let kept := d.dirs.filter
      (fun sub => !matchAny (joinPath relDir sub.dirName ++ "/") cfg.exclude_globs)
    here ++ kept.flatMap (fun sub => iterFiles cfg fuel (joinPath relDir sub.dirName) sub)

/-- The scanner's `skip_ext` blocklist (`repo_scanner.py` lines 126-131). -/
def scanSkipExtensions : List String :=
  [".jar", ".class", ".so", ".dll", ".exe",
   ".zip", ".tar", ".gz", ".7z",
   ".parquet", ".orc", ".avro", ".snappy", ".zst",
   ".png", ".jpg", ".jpeg", ".gif", ".pdf", ".docx", ".pptx", ".xlsx"]

/-- A file-inventory entry.  `parse_status` and the counts are optional
so that `compute_counts`' `setdefault` calls can be modelled faithfully
(the scanner itself always sets `parse_status` to `"ok"`). -/
structure FileEntry where
  path : String
  detected_type : String
  parse_status : Option String
  size_bytes : Option Nat
  lines_count : Option Nat
  words_count : Option Nat
  deriving DecidableEq, Repr

/-- `scan_repository(repo_root, max_file_mb, ...)` (`repo_scanner.py`
lines 112-165): walk, classify, and emit one entry per yielded file —
with `parse_status` unconditionally `"ok"` and `cfg.max_file_bytes`
computed from `max_file_mb` but never consulted. -/
def scan_repository (root : FsDir) (max_file_mb : Nat)
    (include_globs exclude_globs : List String) (fuel : Nat) :
    List FileEntry :=
  let cfg : ScanConfig :=
    ⟨include_globs, exclude_globs, scanSkipExtensions, false,
     max_file_mb * 1024 * 1024⟩
  (iterFiles cfg fuel "" root).map (fun rf =>
    { path := rf.1
      detected_type := detectTypeSimple rf.1
      parse_status := some "ok"
      size_bytes := if rf.2.statOk then some rf.2.size else none
      lines_count := none
      words_count := none })

/-- `dict.setdefault(key, v)` on an optional field. -/
def setDefault (cur : Option String) (v : String) : Option String :=
  match cur with
  | some s => some s
  | none => some v

/-- `count_lines_words` helper: number of whitespace-separated words. -/
def countWordsAux : Bool → List Char → Nat
  | _, [] => 0
  | inWord, c :: cs =>
    if isPyWs c then countWordsAux false cs
    else (if inWord then 0 else 1) + countWordsAux true cs

/-- `count_lines_words(text)` (`counts.py` lines 7-14). -/
def count_lines_words (text : String) : Nat × Nat :=
  let lines := pySplitlines text
  (lines.length,
   lines.foldl (fun acc ln => acc + countWordsAux false (pyStrip ln).data) 0)

/-- The binary-ish extension set of `compute_counts` (`counts.py`
lines 40-41) — note it differs from the scanner's blocklist. -/
def countsBinaryExts : List String :=
  [".jar", ".class", ".zip", ".tar", ".gz", ".7z", ".parquet", ".orc",
   ".avro", ".png", ".jpg", ".jpeg", ".gif", ".pdf", ".docx", ".pptx",
   ".xlsx"]

/-- `compute_counts(repo_root, files_index)` (`counts.py` lines 17-67):
enrich every entry with line/word counts; binary-ish extensions get
`skipped_binary` only via `setdefault` (so never after the scanner),
entries whose recorded size exceeds the *hardcoded* `10 * 1024 * 1024`
cap are marked `skipped_large` without reading, otherwise the file is
read in full (`read_error` on failure, `setdefault("ok")` on success).
`read` models `Path.read_text` on the repository root. -/
def compute_counts (read : String → Option String)
    (files_index : List FileEntry) : List FileEntry :=
  files_index.map (fun f =>
    if f.path = "" then
      { f with
        lines_count := some 0
        words_count := some 0 }
    else
      let ext := pyLower (pathSuffix (basename f.path))
      if ext ∈ countsBinaryExts then
        { f with
          lines_count := some 0
          words_count := some 0
          parse_status := setDefault f.parse_status "skipped_binary" }
      else if (f.size_bytes.map (fun n => decide (10 * 1024 * 1024 < n))).getD false then
        { f with
          lines_count := some 0
          words_count := some 0
          parse_status := some "skipped_large" }
      else
        match read f.path with
        | some text =>
          { f with
            lines_count := some (count_lines_words text).1
            words_count := some (count_lines_words text).2
            parse_status := setDefault f.parse_status "ok" }
        | none =>
          { f with
            lines_count := some 0
            words_count := some 0
            parse_status := some "read_error" })

/-- Locate a file in the tree by its relative path segments. -/
def FsDir.findFile : Nat → FsDir → List String → Option FsFile
  | _, d, [n] => d.files.find? (fun f => f.name = n)
  | fuel + 1, d, seg :: rest =>
    match d.dirs.find? (fun s => s.dirName = seg) with
    | some sub => FsDir.findFile fuel sub rest
    | none => none
  | _, _, _ => none

/-- `Path(repo_root / rel).read_text(...)` over the model tree. -/
def fsRead (root : FsDir) (fuel : Nat) (path : String) : Option String :=
  match FsDir.findFile fuel root ((splitOnChar '/' path.data).map String.mk) with
  | some f => f.content
  | none => none

/-- The file inventory the pipeline hands to every later stage:
`scan_repository` followed by `compute_counts`
(`analyze_repo.py` steps 1-2). -/
def filesIndexAfterCounts (root : FsDir) (max_file_mb : Nat)
    (include_globs exclude_globs : List String) (fuel : Nat) :
    List FileEntry :=
  compute_counts (fsRead root fuel)
    (scan_repository root max_file_mb include_globs exclude_globs fuel)

/-- A repository with a 2 MB SQL file and an 11 MB SQL file. -/
def c3Root : FsDir :=
  FsDir.mk "" []
    [⟨"data.sql", 2 * 1024 * 1024, true, some "select 1 from t"⟩,
     ⟨"big.sql", 11 * 1024 * 1024, true, some "select 2"⟩]

/-! ## The Oozie workflow parser (`workflow_parser.py`)

An `xml.etree` element tree is modelled by `Xml`; the external
`ET.fromstring` call — the only operation inside the `try` block of
`parse_workflow` — is passed in as an oracle of type
`String → Except String Xml` whose error value is the exception text.
All tree traversals after the parse are total dictionary/list
operations, as in the source. -/

/-- An XML element: tag (possibly `\x7bnamespace\x7dlocal`), attributes,
text, children. -/
inductive Xml where
  | mk (tag : String) (attrs : List (String × String)) (text : Option String)
      (children : List Xml)

/-- Tag of an element. -/
def Xml.tag : Xml → String
  | .mk t _ _ _ => t

/-- Attributes of an element. -/
def Xml.attrs : Xml → List (String × String)
  | .mk _ a _ _ => a

/-- Text of an element (`None` when absent). -/
def Xml.text : Xml → Option String
  | .mk _ _ t _ => t

/-- Children of an element. -/
def Xml.children : Xml → List Xml
  | .mk _ _ _ c => c

/-- `_strip_ns(tag)` (`workflow_parser.py` lines 24-25): the part after
the first `\x7d` when one is present. -/
def stripNs (tag : String) : String :=
  if containsSub ['}'] tag.data then
    String.mk ((tag.data.dropWhile (fun c => c ≠ '}')).drop 1)
  else tag

/-- `element.iter()`: the element and all its descendants in document
order.  `fuel` bounds the tree depth. -/
def xmlIter : Nat → Xml → List Xml
  | 0, x => [x]
  | fuel + 1, x => x :: x.children.flatMap (xmlIter fuel)

/-- `element.findall(".//\x7b*\x7dt")`: all strict descendants whose
local name is `t`, in document order. -/
def descendantsMatching (fuel : Nat) (x : Xml) (t : String) : List Xml :=
  (x.children.flatMap (xmlIter fuel)).filter (fun c => stripNs c.tag = t)

/-- `element.findall("\x7b*\x7dt")` on direct children. -/
def childrenMatching (x : Xml) (t : String) : List Xml :=
  x.children.filter (fun c => stripNs c.tag = t)

/-- `element.findtext("\x7b*\x7dt")`: text of the first direct child
with local name `t` (the empty string when that child has no text),
`None` when there is no such child. -/
def findtextLocal (x : Xml) (t : String) : Option String :=
  (x.children.find? (fun c => stripNs c.tag = t)).map (fun c => c.text.getD "")

/-- Python `a or b` on optional strings (`None` and `""` are falsy). -/
def pyOrStr (a b : Option String) : Option String :=
  match a with
  | some s => if s = "" then b else some s
  | none => b

/-- `if e.text: out.append(e.text.strip())` — the truthy-text stripped
value of an element. -/
def textStripped (e : Xml) : Option String :=
  match e.text with
  | some t => if t = "" then none else some (pyStrip t)
  | none => none

/-- `OozieAction` (`workflow_parser.py` lines 5-13). -/
structure OozieAction where
  name : String
  action_type : String
  main : Option String
  args : List String
  files : List String
  archives : List String
  job_xmls : List String
  subworkflow_app_path : Option String
  deriving DecidableEq, Repr

/-- `OozieWorkflow` (`workflow_parser.py` lines 15-21). -/
structure OozieWorkflow where
  name : Option String
  actions : List OozieAction
  has_fork_join : Bool
  has_decision : Bool
  globals : List (String × String)
  deriving DecidableEq, Repr

/-- `parse_workflow(xml_text)` (`workflow_parser.py` lines 27-92):
either a parsed workflow with an empty error string, or `None` with
`xml_parse_error:<exception>` when `ET.fromstring` raises.  `fromstring`
is the external XML parser, `fuel` bounds tree depth. -/
def parse_workflow (fromstring : String → Except String Xml)
    (xml_text : String) (fuel : Nat) : Option OozieWorkflow × String :=
  match fromstring xml_text with
  | .error e => (none, "xml_parse_error:" ++ e)
  | .ok root =>
    let globals_kv := ((descendantsMatching fuel root "global").flatMap
        (fun g => (childrenMatching g "configuration").flatMap
          (fun c => childrenMatching c "property"))).foldl
      (fun d g =>
        match findtextLocal g "name" with
        | some n =>
          if n ≠ "" then dset d n ((findtextLocal g "value").getD "") else d
        | none => d)
      []
    let allNodes := xmlIter fuel root
    let has_fork_join := allNodes.any (fun nd =>
      pyLower (stripNs nd.tag) = "fork" || pyLower (stripNs nd.tag) = "join")
    let has_decision := allNodes.any (fun nd =>
      pyLower (stripNs nd.tag) = "decision")
    let actions := (descendantsMatching fuel root "action").map (fun a =>
      let aname := (dget a.attrs "name").getD ""
      match a.children.find? (fun c =>
          pyLower (stripNs c.tag) ≠ "ok" && pyLower (stripNs c.tag) ≠ "error") with
      | none => OozieAction.mk aname "unknown" none [] [] [] [] none
      | some child =>
        let ct := pyLower (stripNs child.tag)
        let main := pyOrStr (findtextLocal child "script")
          (pyOrStr (findtextLocal child "job-tracker")
            (findtextLocal child "class"))
        let args := (descendantsMatching fuel child "arg").filterMap textStripped
        let files := (descendantsMatching fuel child "file").filterMap textStripped
        let archives :=
          (descendantsMatching fuel child "archive").filterMap textStripped
        let job_xmls :=
          (descendantsMatching fuel child "job-xml").filterMap textStripped
        let subwf :=
          if ct = "sub-workflow" then findtextLocal child "app-path" else none
        OozieAction.mk aname ct main args files archives job_xmls subwf)
    (some (OozieWorkflow.mk (dget root.attrs "name") actions has_fork_join
      has_decision globals_kv), "")

/-- The record returned by `parse_workflow_xml` (the dict keys common to
the success and failure shapes; the success dict additionally carries
the flattened workflow fields). -/
structure WorkflowFileResult where
  source_file : String
  parse_status : String
  name : Option String
  actions : List OozieAction
  deriving DecidableEq, Repr

/-- `parse_workflow_xml(path)` (`workflow_parser.py` lines 102-123):
read the file (`readResult` models `Path.read_text`, erroring with the
exception text), parse, and return a record whose `parse_status` is
`"ok"`, `read_error:...`, or the parse error (`"parse_error"` if that
were ever empty), with an empty action list on failure. -/
def parse_workflow_xml (fromstring : String → Except String Xml)
    (path : String) (readResult : Except String String) (fuel : Nat) :
    WorkflowFileResult :=
  match readResult with
  | .error e => ⟨path, "read_error:" ++ e, none, []⟩
  | .ok xml_text =>
    match parse_workflow fromstring xml_text fuel with
    | (none, err) => ⟨path, if err = "" then "parse_error" else err, none, []⟩
    | (some wf, _) => ⟨path, "ok", wf.name, wf.actions⟩

/-! ## SQL complexity analyzer (`sql_complexity_analyzer.py`)

The analyzer's regular expressions are modelled by explicit scanners.
A *matcher* takes the previous character (for `\b`) and the current
suffix, and returns the suffix after the match (or `none`); `scanEachM`
reproduces `findall`/`sub` scanning — leftmost, non-overlapping,
continue after each match — and `re.search` is "at least one match".
Reporting-only fields that feed neither a score, a level nor a risk
flag (`join_types` beyond the `CROSS JOIN` count, subquery in-clause
counters, CTE names, window/aggregate type lists, the query snippet
metadata, and the dynamic-SQL / nested-view booleans) are omitted. -/

/-- `\b` between `prev` and a word character: satisfied when there is
no previous character or it is not a word character. -/
def boundaryBefore (prev : Option Char) : Bool :=
  match prev with
  | none => true
  | some c => !isWordChar c

/-- Trailing `\b` after a word character: the rest must not continue
with a word character. -/
def noWordAfter (s : List Char) : Bool :=
  match s with
  | [] => true
  | c :: _ => !isWordChar c

/-- Case-insensitive literal (for `re.IGNORECASE`). -/
def litCI : List Char → List Char → Option (List Char)
  | [], s => some s
  | _ :: _, [] => none
  | c :: cs, d :: s => if c.toUpper = d.toUpper then litCI cs s else none

/-- `\s+` (greedy; every use site is followed by a non-whitespace
literal, so maximal munch is exact). -/
def ws1 (s : List Char) : Option (List Char) :=
  match s with
  | [] => none
  | c :: rest => if isPyWs c then some (rest.dropWhile isPyWs) else none

/-- `\s*`. -/
def wsStar (s : List Char) : List Char := s.dropWhile isPyWs

/-- `\w+` followed by whatever the continuation needs (greedy; word
characters and the whitespace/parenthesis that follow are disjoint, so
no backtracking arises). -/
def word1 (s : List Char) : Option (List Char) :=
  match s.takeWhile isWordChar with
  | [] => none
  | _ => some (s.dropWhile isWordChar)

/-- All matches of a matcher, leftmost and non-overlapping, as the
matched character runs (`re.findall` on a whole-match pattern).  The
previous character is threaded for `\b`; fuel is the input length plus
one (each step consumes at least one character). -/
def scanEachM (m : Option Char → List Char → Option (List Char)) :
    Nat → Option Char → List Char → List (List Char)
  | 0, _, _ => []
  | _ + 1, _, [] => []
  | fuel + 1, prev, c :: cs =>
    match m prev (c :: cs) with
    | some rest =>
      let n := (c :: cs).length - rest.length
      ((c :: cs).take n) ::
        scanEachM m fuel (((c :: cs).take n).getLast?) rest
    | none => scanEachM m fuel (some c) cs

/-- Number of matches (`len(re.findall(...))`). -/
def countM (m : Option Char → List Char → Option (List Char))
    (cs : List Char) : Nat :=
  (scanEachM m (cs.length + 1) none cs).length

/-- `re.search(...)` as a boolean. -/
def searchM (m : Option Char → List Char → Option (List Char))
    (cs : List Char) : Bool :=
  decide (countM m cs ≠ 0)

/-- Ordered alternation with a trailing-`\b` requirement per
alternative (the regex engine falls through to the next alternative
when the boundary fails). -/
def altsFirstB (alts : List (List Char → Option (List Char)))
    (s : List Char) : Option (List Char) :=
  match alts with
  | [] => none
  | a :: rest =>
    match a s with
    | some r => if noWordAfter r then some r else altsFirstB rest s
    | none => altsFirstB rest s

/-- Ordered alternation without a trailing boundary. -/
def altsFirst (alts : List (List Char → Option (List Char)))
    (s : List Char) : Option (List Char) :=
  match alts with
  | [] => none
  | a :: rest =>
    match a s with
    | some r => some r
    | none => altsFirst rest s

/-! ### `_normalize_sql` -/

/-- `re.sub(r"--[^\n]*", "", sql)`. -/
def stripLineComments : Nat → List Char → List Char
  | 0, cs => cs
  | _ + 1, [] => []
  | fuel + 1, '-' :: '-' :: rest =>
    stripLineComments fuel (rest.dropWhile (fun c => c ≠ '\n'))
  | fuel + 1, c :: rest => c :: stripLineComments fuel rest

/-- Advance past the first occurrence of a case-insensitive literal,
returning the rest (used for `.*?LIT` tails). -/
def dropThroughLit (kw : String) : List Char → Option (List Char)
  | [] => none
  | c :: cs =>
    match litCI kw.data (c :: cs) with
    | some r => some r
    | none => dropThroughLit kw cs

/-- `re.sub(r"/\*.*?\*/", "", sql, flags=re.DOTALL)`: each `/*` is
removed through the first following `*/`; an unclosed `/*` stays (the
regex cannot match, the engine advances one character). -/
def stripBlockComments : Nat → List Char → List Char
  | 0, cs => cs
  | _ + 1, [] => []
  | fuel + 1, '/' :: '*' :: rest =>
    (match dropThroughLit "*/" rest with
     | some after => stripBlockComments fuel after
     | none => '/' :: stripBlockComments fuel ('*' :: rest))
  | fuel + 1, c :: rest => c :: stripBlockComments fuel rest

/-- `" ".join(sql.split())`. -/
def wsNormalize : Nat → List Char → List Char
  | 0, _ => []
  | _ + 1, [] => []
  | fuel + 1, c :: cs =>
    if isPyWs c then wsNormalize fuel cs
    else
      let w := (c :: cs).takeWhile (fun x => !isPyWs x)
      let rest := (c :: cs).dropWhile (fun x => !isPyWs x)
      match wsNormalize fuel rest with
      | [] => w
      | more => w ++ ' ' :: more

/-- `_normalize_sql(sql)` (`sql_complexity_analyzer.py` lines 334-342):
drop `--` comments, drop `/* */` comments, collapse whitespace. -/
def normalize_sql (sql : String) : String :=
  let a := stripLineComments sql.data.length sql.data
  let b := stripBlockComments a.length a
  String.mk (wsNormalize b.length b)

/-! ### `_analyze_joins` -/

/-- `KW1\s+KW2`. -/
def seqWs (kw1 kw2 : String) (s : List Char) : Option (List Char) :=
  (litCI kw1.data s).bind fun r1 => (ws1 r1).bind fun r2 => litCI kw2.data r2

/-- `KW\s+(?:OUTER\s+)?JOIN` (the optional `OUTER` is committed: when
`OUTER` followed by whitespace matches, the alternative without it would
need whitespace at `O` and so fails anyway). -/
def outerJoinAlt (kw : String) (s : List Char) : Option (List Char) :=
  (litCI kw.data s).bind fun r1 => (ws1 r1).bind fun r2 =>
    let r3 := ((litCI "OUTER".data r2).bind ws1).getD r2
    litCI "JOIN".data r3

/-- The `JOIN_PATTERN` matcher
(`\b(INNER\s+JOIN|LEFT\s+(?:OUTER\s+)?JOIN|RIGHT\s+(?:OUTER\s+)?JOIN|FULL\s+(?:OUTER\s+)?JOIN|CROSS\s+JOIN|JOIN)\b`). -/
def joinMatcher (prev : Option Char) (s : List Char) : Option (List Char) :=
  if boundaryBefore prev then
    altsFirstB
      [seqWs "INNER" "JOIN", outerJoinAlt "LEFT", outerJoinAlt "RIGHT",
       outerJoinAlt "FULL", seqWs "CROSS" "JOIN", litCI "JOIN".data] s
  else none

/-- `join.strip().replace("OUTER", "").strip()` — the key under which a
matched join lands in `join_types`. -/
def joinTypeKey (m : List Char) : String :=
  pyStrip (String.mk (replaceSub "OUTER".data [] (pyStrip (String.mk m)).data))

/-- `FROM\s+(\w+)\s+(\w+)`-style alias matcher (no `\b`), returning the
first capture group and the rest after the whole match. -/
def aliasMatcher (kw : String) (_ : Option Char) (s : List Char) :
    Option (List Char) :=
  (litCI kw.data s).bind fun r1 => (ws1 r1).bind fun r2 =>
    match r2.takeWhile isWordChar with
    | [] => none
    | _ =>
      let r3 := r2.dropWhile isWordChar
      (ws1 r3).bind fun r4 => word1 r4

/-- The first capture (`(\w+)` after the keyword and whitespace) of an
alias match. -/
def aliasFirstGroup (kw : String) (m : List Char) : String :=
  pyUpper (String.mk (((m.drop kw.length).dropWhile isPyWs).takeWhile isWordChar))

/-- `_detect_self_join(sql)` (lines 600-607): the first groups of all
`FROM \w+ \w+` / `JOIN \w+ \w+` matches, uppercased; a self-join is a
duplicate among them. -/
def detect_self_join (sql : String) : Bool :=
  let fromTables := (scanEachM (aliasMatcher "FROM") (sql.data.length + 1)
    none sql.data).map (aliasFirstGroup "FROM")
  let joinTables := (scanEachM (aliasMatcher "JOIN") (sql.data.length + 1)
    none sql.data).map (aliasFirstGroup "JOIN")
  let all_tables := fromTables ++ joinTables
  decide (all_tables.length ≠ (all_tables.foldl addUnique []).length)

/-- `JoinAnalysis` (the `join_types` dict is kept as its only
score-relevant projection, the `CROSS JOIN` entry). -/
structure JoinAnalysis where
  total_joins : Nat
  cross_join_type_count : Nat
  max_tables_joined : Nat
  has_self_join : Bool
  has_cross_join : Bool
  join_complexity_score : Nat
  deriving DecidableEq, Repr

/-- `_analyze_joins(sql)` (lines 344-376). -/
def analyze_joins (sql : String) : JoinAnalysis :=
  let joins := scanEachM joinMatcher (sql.data.length + 1) none sql.data
  let total_joins := joins.length
  let cross_types := (joins.filter (fun j => joinTypeKey j = "CROSS JOIN")).length
  let has_self_join := detect_self_join sql
  let has_cross_join := containsSub "CROSS JOIN".data (pyUpper sql).data
  let score := total_joins * 5 + cross_types * 15 +
    (if has_self_join then 10 else 0) + (total_joins - 3) * 3
  { total_joins := total_joins
    cross_join_type_count := cross_types
    max_tables_joined := if total_joins > 0 then total_joins + 1 else 1
    has_self_join := has_self_join
    has_cross_join := has_cross_join
    join_complexity_score := score }

/-! ### `_analyze_subqueries` -/

/-- `SUBQUERY_PATTERN` = `\(\s*SELECT\b`. -/
def subqueryMatcher (_ : Option Char) (s : List Char) : Option (List Char) :=
  match s with
  | '(' :: r =>
    (litCI "SELECT".data (wsStar r)).bind fun rest =>
      if noWordAfter rest then some rest else none
  | _ => none

/-- The tail `.*?\(.*?SELECT` of the correlated-subquery pattern.  The
non-greedy backtracking search coincides with committing to the first
`(`: when no `SELECT` follows the first `(`, none follows any later one
either (the search spaces are nested suffixes), so the whole pattern
fails. -/
def parenSelectTail : List Char → Option (List Char)
  | [] => none
  | '(' :: cs => dropThroughLit "SELECT" cs
  | _ :: cs => parenSelectTail cs

/-- The tail `.*?=.*?\(.*?SELECT` — the same committed-first-occurrence
argument applies to `=`. -/
def eqParenSelectTail : List Char → Option (List Char)
  | [] => none
  | '=' :: cs => parenSelectTail cs
  | _ :: cs => eqParenSelectTail cs

/-- The correlated-subquery pattern
`WHERE.*?=.*?\(.*?SELECT` (`re.IGNORECASE | re.DOTALL`, no `\b`). -/
def correlatedMatcher (_ : Option Char) (s : List Char) : Option (List Char) :=
  (litCI "WHERE".data s).bind eqParenSelectTail

/-- The parenthesis-depth counter of `_calculate_subquery_depth`
(lines 585-598). -/
def subqDepth : List Char → Nat → Nat → Nat
  | [], _, maxd => maxd
  | '(' :: cs, cur, maxd => subqDepth cs (cur + 1) (max maxd (cur + 1))
  | ')' :: cs, cur, maxd => subqDepth cs (cur - 1) maxd
  | _ :: cs, cur, maxd => subqDepth cs cur maxd

/-- `_calculate_subquery_depth(sql)`: half the maximal bracket depth,
capped at 10. -/
def calculate_subquery_depth (sql : String) : Nat :=
  min (subqDepth sql.data 0 0 / 2) 10

/-- `SubqueryAnalysis` (the three in-clause counters are
reporting-only and omitted). -/
structure SubqueryAnalysis where
  total_subqueries : Nat
  max_nesting_depth : Nat
  correlated_subqueries : Nat
  subquery_complexity_score : Nat
  deriving DecidableEq, Repr

/-- `_analyze_subqueries(sql_clean, sql_original)` (lines 378-408):
patterns run on the normalized text, the depth counter on the original
text. -/
def analyze_subqueries (sql_clean sql_original : String) : SubqueryAnalysis :=
  let total := countM subqueryMatcher sql_clean.data
  let depth := calculate_subquery_depth sql_original
  let correlated := countM correlatedMatcher sql_clean.data
  { total_subqueries := total
    max_nesting_depth := depth
    correlated_subqueries := correlated
    subquery_complexity_score := total * 8 + depth * 10 + correlated * 12 }

/-! ### The remaining dimension analyzers -/

/-- `\bKW\b`. -/
def kwMatcher (kw : String) (prev : Option Char) (s : List Char) :
    Option (List Char) :=
  if boundaryBefore prev then
    (litCI kw.data s).bind fun r => if noWordAfter r then some r else none
  else none

/-- `\bKW1\s+KW2\b`. -/
def kw2Matcher (kw1 kw2 : String) (prev : Option Char) (s : List Char) :
    Option (List Char) :=
  if boundaryBefore prev then
    (seqWs kw1 kw2 s).bind fun r => if noWordAfter r then some r else none
  else none

/-- `\bKW\s*\(`. -/
def funcMatcher (kw : String) (prev : Option Char) (s : List Char) :
    Option (List Char) :=
  if boundaryBefore prev then
    (litCI kw.data s).bind fun r =>
      match wsStar r with
      | '(' :: rest => some rest
      | _ => none
  else none

/-- `\b(NAME1|NAME2|...)\s*\(` with per-alternative backtracking into
the `\s*\(` suffix. -/
def funcCallMatcher (names : List String) (prev : Option Char)
    (s : List Char) : Option (List Char) :=
  if boundaryBefore prev then
    altsFirst (names.map (fun n => fun s2 =>
      (litCI n.data s2).bind fun r =>
        match wsStar r with
        | '(' :: rest => some rest
        | _ => none)) s
  else none

/-- `CTE_PATTERN` = `\bWITH\s+(\w+)\s+AS\s*\(`. -/
def cteMatcher (prev : Option Char) (s : List Char) : Option (List Char) :=
  if boundaryBefore prev then
    (litCI "WITH".data s).bind fun r1 => (ws1 r1).bind fun r2 =>
      (word1 r2).bind fun r3 => (ws1 r3).bind fun r4 =>
        (litCI "AS".data r4).bind fun r5 =>
          match wsStar r5 with
          | '(' :: rest => some rest
          | _ => none
  else none

/-- `RECURSIVE_CTE_PATTERN` = `\bWITH\s+RECURSIVE\b`. -/
def recCteMatcher (prev : Option Char) (s : List Char) : Option (List Char) :=
  kw2Matcher "WITH" "RECURSIVE" prev s

/-- `CTEAnalysis` (`cte_names` is reporting-only and omitted). -/
structure CTEAnalysis where
  total_ctes : Nat
  max_cte_chain_length : Nat
  recursive_ctes : Nat
  cte_complexity_score : Nat
  deriving DecidableEq, Repr

/-- `_analyze_ctes(sql)` (lines 410-434). -/
def analyze_ctes (sql : String) : CTEAnalysis :=
  let total := countM cteMatcher sql.data
  let recursive := countM recCteMatcher sql.data
  { total_ctes := total
    max_cte_chain_length := min total 5
    recursive_ctes := recursive
    cte_complexity_score := total * 5 + recursive * 20 + (total - 2) * 3 }

/-- `WINDOW_FUNCTIONS` (lines 231-235). -/
def WINDOW_FUNCTIONS : List String :=
  ["ROW_NUMBER", "RANK", "DENSE_RANK", "NTILE", "LAG", "LEAD",
   "FIRST_VALUE", "LAST_VALUE", "NTH_VALUE", "PERCENT_RANK",
   "CUME_DIST", "PERCENTILE_CONT", "PERCENTILE_DISC"]

/-- `WindowFunctionAnalysis` (the matched-name list is omitted). -/
structure WindowFunctionAnalysis where
  total_window_functions : Nat
  has_partition_by : Bool
  has_order_by : Bool
  window_complexity_score : Nat
  deriving DecidableEq, Repr

/-- `_analyze_window_functions(sql)` (lines 436-457). -/
def analyze_window_functions (sql : String) : WindowFunctionAnalysis :=
  let total := countM (funcCallMatcher WINDOW_FUNCTIONS) sql.data
  let hasP := searchM (kw2Matcher "PARTITION" "BY") sql.data
  let hasO := searchM (kw2Matcher "ORDER" "BY") sql.data
  { total_window_functions := total
    has_partition_by := hasP
    has_order_by := hasO
    window_complexity_score := total * 10 + (if hasP then 5 else 0) +
      (if hasO then 3 else 0) }

/-- `AGGREGATE_FUNCTIONS` (lines 237-240). -/
def AGGREGATE_FUNCTIONS : List String :=
  ["COUNT", "SUM", "AVG", "MIN", "MAX", "STDDEV", "VARIANCE",
   "STRING_AGG", "ARRAY_AGG", "LISTAGG", "GROUP_CONCAT"]

/-- `\b(COUNT|SUM|AVG)\s*\(\s*DISTINCT`. -/
def distinctAggMatcher (prev : Option Char) (s : List Char) :
    Option (List Char) :=
  if boundaryBefore prev then
    altsFirst (["COUNT", "SUM", "AVG"].map (fun n => fun s2 =>
      (litCI n.data s2).bind fun r =>
        match wsStar r with
        | '(' :: rest => litCI "DISTINCT".data (wsStar rest)
        | _ => none)) s
  else none

/-- `AggregateAnalysis` (the per-name count dict is omitted). -/
structure AggregateAnalysis where
  total_aggregates : Nat
  has_group_by : Bool
  has_having : Bool
  distinct_aggregates : Nat
  aggregate_complexity_score : Nat
  deriving DecidableEq, Repr

/-- `_analyze_aggregates(sql)` (lines 459-488). -/
def analyze_aggregates (sql : String) : AggregateAnalysis :=
  let total := countM (funcCallMatcher AGGREGATE_FUNCTIONS) sql.data
  let hasG := searchM (kw2Matcher "GROUP" "BY") sql.data
  let hasH := searchM (kwMatcher "HAVING") sql.data
  let distinct := countM distinctAggMatcher sql.data
  { total_aggregates := total
    has_group_by := hasG
    has_having := hasH
    distinct_aggregates := distinct
    aggregate_complexity_score := total * 3 + (if hasG then 5 else 0) +
      (if hasH then 5 else 0) + distinct * 5 }

/-- `SET_OPERATIONS` (line 242). -/
def SET_OPERATIONS : List String := ["UNION", "INTERSECT", "EXCEPT", "MINUS"]

/-- `SetOperationAnalysis` (the per-op count dict is kept only as the
total). -/
structure SetOperationAnalysis where
  total_set_operations : Nat
  has_union_all : Bool
  set_operation_complexity_score : Nat
  deriving DecidableEq, Repr

/-- `_analyze_set_operations(sql)` (lines 490-511). -/
def analyze_set_operations (sql : String) : SetOperationAnalysis :=
  let total := (SET_OPERATIONS.map (fun op => countM (kwMatcher op) sql.data)).sum
  let hasUA := searchM (kw2Matcher "UNION" "ALL") sql.data
  { total_set_operations := total
    has_union_all := hasUA
    set_operation_complexity_score := total * 8 }

/-- `CASE.*?END` (`re.IGNORECASE | re.DOTALL`, no word boundaries):
from each `CASE` through the first following `END`. -/
def caseBlockMatcher (_ : Option Char) (s : List Char) : Option (List Char) :=
  (litCI "CASE".data s).bind (dropThroughLit "END")

/-- `ControlStructureAnalysis`. -/
structure ControlStructureAnalysis where
  total_case_statements : Nat
  max_case_branches : Nat
  has_coalesce : Bool
  has_nullif : Bool
  has_cast : Bool
  control_complexity_score : Nat
  deriving DecidableEq, Repr

/-- `_analyze_control_structures(sql)` (lines 513-541). -/
def analyze_control_structures (sql : String) : ControlStructureAnalysis :=
  let case_statements := countM (kwMatcher "CASE") sql.data
  let blocks := scanEachM caseBlockMatcher (sql.data.length + 1) none sql.data
  let max_branches := blocks.foldl
    (fun m b => max m (countM (kwMatcher "WHEN") b)) 0
  let hasCo := searchM (funcMatcher "COALESCE") sql.data
  let hasNu := searchM (funcMatcher "NULLIF") sql.data
  let hasCa := searchM (funcMatcher "CAST") sql.data
  { total_case_statements := case_statements
    max_case_branches := max_branches
    has_coalesce := hasCo
    has_nullif := hasNu
    has_cast := hasCa
    control_complexity_score := case_statements * 5 + (max_branches - 3) * 2 +
      (if hasCo then 2 else 0) + (if hasNu then 2 else 0) +
      (if hasCa then 1 else 0) }

/-- `\bKW\s+(ALT1|ALT2|...)` (no trailing boundary). -/
def kwThenAltMatcher (kw : String) (alts : List String) (prev : Option Char)
    (s : List Char) : Option (List Char) :=
  if boundaryBefore prev then
    (litCI kw.data s).bind fun r1 => (ws1 r1).bind fun r2 =>
      altsFirst (alts.map (fun a => litCI a.data)) r2
  else none

/-- `\bPARTITION(ED)?\s+BY\b` (the optional `ED` is committed: the
without-`ED` path would need whitespace at `E` and fails anyway). -/
def partitionByMatcher (prev : Option Char) (s : List Char) :
    Option (List Char) :=
  if boundaryBefore prev then
    (litCI "PARTITION".data s).bind fun r1 =>
      let r2 := (litCI "ED".data r1).getD r1
      (ws1 r2).bind fun r3 => (litCI "BY".data r3).bind fun r4 =>
        if noWordAfter r4 then some r4 else none
  else none

/-- `DDLAnalysis`. -/
structure DDLAnalysis where
  has_create : Bool
  has_alter : Bool
  has_drop : Bool
  has_truncate : Bool
  partition_operations : Nat
  index_operations : Nat
  ddl_complexity_score : Nat
  deriving DecidableEq, Repr

/-- `_analyze_ddl(sql)` (lines 543-571). -/
def analyze_ddl (sql : String) : DDLAnalysis :=
  let hasCr := searchM (kwThenAltMatcher "CREATE" ["TABLE", "VIEW", "INDEX"]) sql.data
  let hasAl := searchM (kwThenAltMatcher "ALTER" ["TABLE"]) sql.data
  let hasDr := searchM (kwThenAltMatcher "DROP" ["TABLE", "VIEW", "INDEX"]) sql.data
  let hasTr := searchM (kwThenAltMatcher "TRUNCATE" ["TABLE"]) sql.data
  let partitionOps := countM partitionByMatcher sql.data
  let indexOps := countM (kwMatcher "INDEX") sql.data
  { has_create := hasCr
    has_alter := hasAl
    has_drop := hasDr
    has_truncate := hasTr
    partition_operations := partitionOps
    index_operations := indexOps
    ddl_complexity_score := (if hasCr then 10 else 0) +
      (if hasAl then 8 else 0) + (if hasDr then 5 else 0) +
      (if hasTr then 5 else 0) + partitionOps * 5 + indexOps * 3 }

/-- `_classify_complexity(score).value` (lines 613-622):
0-20 simple, 21-50 moderate, 51-80 complex, 81+ very complex. -/
def classify_complexity (score : Nat) : String :=
  if score ≤ 20 then "simple"
  else if score ≤ 50 then "moderate"
  else if score ≤ 80 then "complex"
  else "very_complex"

/-- `_identify_risk_flags(...)` (lines 624-662), flags in append
order. -/
def identify_risk_flags (j : JoinAnalysis) (sq : SubqueryAnalysis)
    (cte : CTEAnalysis) (w : WindowFunctionAnalysis)
    (agg : AggregateAnalysis) (so : SetOperationAnalysis) : List String :=
  (if j.total_joins > 5 then ["many_joins"] else []) ++
  (if j.has_cross_join then ["cross_join"] else []) ++
  (if j.has_self_join then ["self_join"] else []) ++
  (if sq.max_nesting_depth > 3 then ["deep_nesting"] else []) ++
  (if sq.correlated_subqueries > 0 then ["correlated_subqueries"] else []) ++
  (if cte.recursive_ctes > 0 then ["recursive_cte"] else []) ++
  (if cte.total_ctes > 5 then ["many_ctes"] else []) ++
  (if w.total_window_functions > 3 then ["many_window_functions"] else []) ++
  (if agg.distinct_aggregates > 2 then ["distinct_aggregates"] else []) ++
  (if so.total_set_operations > 2 then ["many_set_operations"] else [])

/-- `_estimate_execution_complexity(...)` (lines 664-689). -/
def estimate_execution_complexity (j : JoinAnalysis) (sq : SubqueryAnalysis)
    (total_score : Nat) : String :=
  let high_factors := (if j.has_cross_join then 2 else 0) +
    (if j.total_joins > 5 then 1 else 0) +
    (if sq.correlated_subqueries > 0 then 2 else 0) +
    (if sq.max_nesting_depth > 3 then 1 else 0)
  if 3 ≤ high_factors ∨ 100 < total_score then "very_high"
  else if 2 ≤ high_factors ∨ 60 < total_score then "high"
  else if 30 < total_score then "medium"
  else "low"

/-- `SQLComplexityResult` restricted to the analysis payload (file
path, line number, snippet metadata and the dynamic-SQL / nested-view
booleans are reporting-only and omitted). -/
structure SQLComplexityResult where
  join_analysis : JoinAnalysis
  subquery_analysis : SubqueryAnalysis
  cte_analysis : CTEAnalysis
  window_function_analysis : WindowFunctionAnalysis
  aggregate_analysis : AggregateAnalysis
  set_operation_analysis : SetOperationAnalysis
  control_structure_analysis : ControlStructureAnalysis
  ddl_analysis : DDLAnalysis
  total_complexity_score : Nat
  complexity_level : String
  risk_flags : List String
  estimated_execution_complexity : String
  deriving DecidableEq, Repr

/-- `SQLComplexityAnalyzer.analyze_query(sql_text, ...)`
(lines 252-331): normalize, run the eight dimension analyzers, sum the
scores, classify, and derive the risk flags. -/
def analyze_query (sql_text : String) : SQLComplexityResult :=
  let sql_clean := normalize_sql sql_text
  let j := analyze_joins sql_clean
  let sq := analyze_subqueries sql_clean sql_text
  let cte := analyze_ctes sql_clean
  let w := analyze_window_functions sql_clean
  let agg := analyze_aggregates sql_clean
  let so := analyze_set_operations sql_clean
  let ctrl := analyze_control_structures sql_clean
  let ddl := analyze_ddl sql_clean
  let total := j.join_complexity_score + sq.subquery_complexity_score +
    cte.cte_complexity_score + w.window_complexity_score +
    agg.aggregate_complexity_score + so.set_operation_complexity_score +
    ctrl.control_complexity_score + ddl.ddl_complexity_score
  { join_analysis := j
    subquery_analysis := sq
    cte_analysis := cte
    window_function_analysis := w
    aggregate_analysis := agg
    set_operation_analysis := so
    control_structure_analysis := ctrl
    ddl_analysis := ddl
    total_complexity_score := total
    complexity_level := classify_complexity total
    risk_flags := identify_risk_flags j sq cte w agg so
    estimated_execution_complexity := estimate_execution_complexity j sq total }

/-- The six-join, cross-join, correlated-subquery example query. -/
def c7Sql : String :=
  "SELECT a FROM t1 x JOIN t2 b ON c JOIN t3 d ON c JOIN t4 e ON c " ++
  "JOIN t5 f ON c JOIN t6 g ON c CROSS JOIN t7 " ++
  "WHERE a = (SELECT m FROM t8 WHERE k = x.a)"

/-! ## Database/schema parser (`database_schema_parser.py`)

The per-line regexes are modelled with the same matcher toolkit; a
capturing matcher returns the capture group together with the rest of
the line, and `scanCaptures` pairs every match's capture with its
matched text.  Optional regex pieces that can affect whether the rest of
the pattern matches are modelled with explicit backtracking
(`optSeq` / `firstAltThen`), exactly as the regex engine retries. -/

/-- Case-sensitive literal (the Hive-variable patterns are compiled
without `re.IGNORECASE`). -/
def litCS : List Char → List Char → Option (List Char)
  | [], s => some s
  | _ :: _, [] => none
  | c :: cs, d :: s => if c = d then litCS cs s else none

/-- `(?:X)?` followed by a continuation, with backtracking: try the
continuation after `X`, and if either fails, the continuation without
`X`. -/
def optSeq (m : List Char → Option (List Char))
    (k : List Char → Option α) (s : List Char) : Option α :=
  match m s with
  | some r =>
    (match k r with
     | some v => some v
     | none => k s)
  | none => k s

/-- Ordered alternatives followed by a continuation, with backtracking
across alternatives. -/
def firstAltThen (alts : List (List Char → Option (List Char)))
    (k : List Char → Option α) (s : List Char) : Option α :=
  match alts with
  | [] => none
  | a :: rest =>
    match (a s).bind k with
    | some v => some v
    | none => firstAltThen rest k s

/-- All matches of a capturing matcher: `(capture, matched text)`
pairs, leftmost and non-overlapping. -/
def scanCaptures (m : Option Char → List Char → Option (List Char × List Char)) :
    Nat → Option Char → List Char → List (List Char × List Char)
  | 0, _, _ => []
  | _ + 1, _, [] => []
  | fuel + 1, prev, c :: cs =>
    match m prev (c :: cs) with
    | some (cap, rest) =>
      let n := (c :: cs).length - rest.length
      (cap, (c :: cs).take n) ::
        scanCaptures m fuel (((c :: cs).take n).getLast?) rest
    | none => scanCaptures m fuel (some c) cs

/-- `[`"\[]` — an opening quote of an identifier capture. -/
def isOpenQuote (c : Char) : Bool := c = '`' || c = '"' || c = '['

/-- `[`"\]]` — a closing quote of an identifier capture. -/
def isCloseQuote (c : Char) : Bool := c = '`' || c = '"' || c = ']'

/-- A character of the table-name capture class `[\w.$\x7b\x7d:]`. -/
def isTableNameChar (c : Char) : Bool :=
  isWordChar c || c = '.' || c = '$' || c = '{' || c = '}' || c = ':'

/-- The capture `([`"\[]?[\w]+[`"\]]?)` of `USE_DB_RE`: optional open
quote, one or more word characters, optional close quote.  (Committing
to a present open quote is exact: without it the `\w+` would start at
the quote character and fail.) -/
def captureUseName (s : List Char) : Option (List Char × List Char) :=
  let (q1, r1) :=
    match s with
    | c :: t => if isOpenQuote c then ([c], t) else ([], s)
    | [] => ([], s)
  match r1.takeWhile isWordChar with
  | [] => none
  | w =>
    let r2 := r1.dropWhile isWordChar
    let (q2, r3) :=
      match r2 with
      | c :: t => if isCloseQuote c then ([c], t) else ([], r2)
      | [] => ([], r2)
    some (q1 ++ w ++ q2, r3)

/-- The capture `([`"\[]?[\w.$\x7b\x7d:]+[`"\]]?)` shared by all table
patterns. -/
def captureTableName (s : List Char) : Option (List Char × List Char) :=
  let (q1, r1) :=
    match s with
    | c :: t => if isOpenQuote c then ([c], t) else ([], s)
    | [] => ([], s)
  match r1.takeWhile isTableNameChar with
  | [] => none
  | w =>
    let r2 := r1.dropWhile isTableNameChar
    let (q2, r3) :=
      match r2 with
      | c :: t => if isCloseQuote c then ([c], t) else ([], r2)
      | [] => ([], r2)
    some (q1 ++ w ++ q2, r3)

/-- `USE_DB_RE` =
`(?i)\bUSE\s+(?:DATABASE\s+)?(?:SCHEMA\s+)?([`"\[]?[\w]+[`"\]]?)\s*;?`. -/
def useMatcher (prev : Option Char) (s : List Char) :
    Option (List Char × List Char) :=
  if boundaryBefore prev then
    (litCI "USE".data s).bind fun r1 => (ws1 r1).bind fun r2 =>
      optSeq (fun x => (litCI "DATABASE".data x).bind ws1)
        (fun r3 =>
          optSeq (fun x => (litCI "SCHEMA".data x).bind ws1)
            (fun r4 =>
              (captureUseName r4).map (fun cr =>
                let r6 := wsStar cr.2
                match r6 with
                | ';' :: t => (cr.1, t)
                | _ => (cr.1, r6)))
            r3)
        r2
  else none

/-- A table-reference matcher: a prefix (with backtracking built in)
followed by the shared capture. -/
def tableRefMatcher (prefixM : (List Char → Option (List Char × List Char)) →
      List Char → Option (List Char × List Char))
    (prev : Option Char) (s : List Char) : Option (List Char × List Char) :=
  if boundaryBefore prev then prefixM captureTableName s else none

/-- `FROM\s+` prefix. -/
def fromPrefix (k : List Char → Option α) (s : List Char) : Option α :=
  (litCI "FROM".data s).bind fun r => (ws1 r).bind k

/-- `(?:INNER\s+|LEFT\s+(?:OUTER\s+)?|RIGHT\s+(?:OUTER\s+)?|FULL\s+(?:OUTER\s+)?|CROSS\s+)?JOIN\s+`
prefix (alternatives flattened in the regex engine's preference order,
with the empty alternative last). -/
def joinPrefix (k : List Char → Option α) (s : List Char) : Option α :=
  firstAltThen
    [fun x => (litCI "INNER".data x).bind ws1,
     fun x => (litCI "LEFT".data x).bind ws1 >>= fun r =>
       ((litCI "OUTER".data r).bind ws1).orElse (fun _ => some r),
     fun x => (litCI "RIGHT".data x).bind ws1 >>= fun r =>
       ((litCI "OUTER".data r).bind ws1).orElse (fun _ => some r),
     fun x => (litCI "FULL".data x).bind ws1 >>= fun r =>
       ((litCI "OUTER".data r).bind ws1).orElse (fun _ => some r),
     fun x => (litCI "CROSS".data x).bind ws1,
     fun x => some x]
    (fun r => (litCI "JOIN".data r).bind fun r2 => (ws1 r2).bind k)
    s

/-- `INSERT\s+(?:INTO|OVERWRITE)\s+(?:TABLE\s+)?` prefix. -/
def insertPrefix (k : List Char → Option α) (s : List Char) : Option α :=
  (litCI "INSERT".data s).bind fun r1 => (ws1 r1).bind fun r2 =>
    firstAltThen [litCI "INTO".data, litCI "OVERWRITE".data]
      (fun r3 => (ws1 r3).bind fun r4 =>
        optSeq (fun x => (litCI "TABLE".data x).bind ws1) k r4)
      r2

/-- `CREATE\s+(?:EXTERNAL\s+)?TABLE\s+(?:IF\s+NOT\s+EXISTS\s+)?`
prefix. -/
def createPrefix (k : List Char → Option α) (s : List Char) : Option α :=
  (litCI "CREATE".data s).bind fun r1 => (ws1 r1).bind fun r2 =>
    optSeq (fun x => (litCI "EXTERNAL".data x).bind ws1)
      (fun r3 => (litCI "TABLE".data r3).bind fun r4 => (ws1 r4).bind fun r5 =>
        optSeq (fun x => (litCI "IF".data x).bind ws1 >>= fun a =>
            (litCI "NOT".data a).bind ws1 >>= fun b =>
              (litCI "EXISTS".data b).bind ws1)
          k r5)
      r2

/-- `MERGE\s+INTO\s+` prefix. -/
def mergePrefix (k : List Char → Option α) (s : List Char) : Option α :=
  (seqWs "MERGE" "INTO" s).bind fun r => (ws1 r).bind k

/-- `UPDATE\s+` prefix. -/
def updatePrefix (k : List Char → Option α) (s : List Char) : Option α :=
  (litCI "UPDATE".data s).bind fun r => (ws1 r).bind k

/-- `DELETE\s+FROM\s+` prefix. -/
def deletePrefix (k : List Char → Option α) (s : List Char) : Option α :=
  (seqWs "DELETE" "FROM" s).bind fun r => (ws1 r).bind k

/-- `TRUNCATE\s+(?:TABLE\s+)?` prefix. -/
def truncatePrefix (k : List Char → Option α) (s : List Char) : Option α :=
  (litCI "TRUNCATE".data s).bind fun r1 => (ws1 r1).bind fun r2 =>
    optSeq (fun x => (litCI "TABLE".data x).bind ws1) k r2

/-- `clean_identifier(name)`: strip backticks/quotes/brackets, then
whitespace. -/
def clean_identifier (name : String) : String :=
  pyStrip (pyStripChars ['`', '"', '[', ']'] name)

/-- Python truthiness of an optional string (`None` and `""` falsy). -/
def pyTruthy : Option String → Bool
  | some s => decide (s ≠ "")
  | none => false

/-- `ALL_VAR_RE.search(s)` — the string contains a `${...}` token. -/
def hasVarToken (s : String) : Bool := decide (findAllTokens s.data ≠ [])

/-- `\$\{hiveconf:(\w+)\}`-style matcher (case-sensitive):
a fixed prefix, a `\w+` capture, a closing brace. -/
def hiveVarMatcher (pre : String) (_ : Option Char) (s : List Char) :
    Option (List Char × List Char) :=
  (litCS pre.data s).bind fun r =>
    match r.takeWhile isWordChar with
    | [] => none
    | w =>
      match r.dropWhile isWordChar with
      | '}' :: rest => some (w, rest)
      | _ => none

/-- `extract_variables(text)` (`database_schema_parser.py`
lines 145-163): `hiveconf:`/`hivevar:`-prefixed and simple `${word}`
variables, as a sorted set.  (For a simple `\$\{(\w+)\}` match the
`'hiveconf:' not in full_match` guard always holds — `\w` excludes
`:`.) -/
def extract_variables (text : String) : List String :=
  let hc := (scanCaptures (hiveVarMatcher "$\x7bhiveconf:")
    (text.data.length + 1) none text.data).map
    (fun p => "hiveconf:" ++ String.mk p.1)
  let hv := (scanCaptures (hiveVarMatcher "$\x7bhivevar:")
    (text.data.length + 1) none text.data).map
    (fun p => "hivevar:" ++ String.mk p.1)
  let sv := (scanCaptures (hiveVarMatcher "$\x7b")
    (text.data.length + 1) none text.data).map (fun p => String.mk p.1)
  pySorted ((hc ++ hv ++ sv).foldl addUnique [])

/-- The constant guard of `parse_qualified_name`'s `$`-branch: the
character after the *first* `$` of the whole name is `\x7b`
(`full_name.index('$')` always finds the first occurrence). -/
def firstDollarBrace (l : List Char) : Bool :=
  match l.dropWhile (fun c => c ≠ '$') with
  | '$' :: '{' :: _ => true
  | _ => false

/-- The character loop of `parse_qualified_name` (lines 170-193):
split on dots outside `${...}` spans, cleaning each part. -/
def pqnFold (dollarBrace : Bool) : Bool → List Char → List String →
    List Char → List String
  | _, cur, parts, [] =>
    if cur = [] then parts
    else parts ++ [clean_identifier (String.mk cur.reverse)]
  | inv, cur, parts, c :: cs =>
    if c = '$' && dollarBrace then pqnFold dollarBrace true (c :: cur) parts cs
    else if c = '}' && inv then pqnFold dollarBrace false (c :: cur) parts cs
    else if c = '.' && !inv then
      if cur = [] then pqnFold dollarBrace inv [] parts cs
      else pqnFold dollarBrace inv []
        (parts ++ [clean_identifier (String.mk cur.reverse)]) cs
    else pqnFold dollarBrace inv (c :: cur) parts cs

/-- `parse_qualified_name(full_name)` (lines 165-210):
`(database, schema, table)`. -/
def parse_qualified_name (full_name : String) :
    Option String × Option String × String :=
  let parts := pqnFold (firstDollarBrace full_name.data) false [] [] full_name.data
  match parts with
  | [t] => (none, none, t)
  | [d, t] => (some d, none, t)
  | [d, s, t] => (some d, some s, t)
  | _ => (none, none, full_name)

/-- A `use_statements` entry. -/
structure UseStatement where
  database : String
  line : Nat
  statement : String
  deriving DecidableEq, Repr

/-- `extract_use_statements(text)` (lines 212-224): per line (1-based),
every `USE_DB_RE` match. -/
def extract_use_statements (text : String) : List UseStatement :=
  ((pySplitNl text).enumFrom 1).flatMap (fun li =>
    (scanCaptures useMatcher (li.2.data.length + 1) none li.2.data).map
      (fun p => ⟨clean_identifier (String.mk p.1), li.1, pyStrip (String.mk p.2)⟩))

/-- `TableReference` (lines 18-31). -/
structure TableReference where
  full_name : String
  database : Option String
  schema : Option String
  table : String
  operation : String
  line_number : Nat
  confidence : String
  has_variables : Bool
  deriving DecidableEq, Repr

/-- `extract_table_references(text, operation, regex, active_database)`
(lines 226-284). -/
def extract_table_references (text operation : String)
    (matcher : Option Char → List Char → Option (List Char × List Char))
    (active_database : Option String) : List TableReference :=
  ((pySplitNl text).enumFrom 1).flatMap (fun li =>
    (scanCaptures matcher (li.2.data.length + 1) none li.2.data).filterMap
      (fun p =>
        let full_name := clean_identifier (String.mk p.1)
        if pyUpper full_name = "IF" ∨ pyUpper full_name = "NOT" ∨
            pyUpper full_name = "EXISTS" ∨ pyUpper full_name = "EXTERNAL" ∨
            pyUpper full_name = "TABLE" then none
        else
          let has_vars := hasVarToken full_name
          let dst := parse_qualified_name full_name
          let database := dst.1
          let schema := dst.2.1
          let table := dst.2.2
          let promoted :=
            if !pyTruthy database && pyTruthy active_database && !has_vars then
              (active_database, (none : Option String))
            else (database, schema)
          let confidence :=
            if has_vars then
              (if pyTruthy promoted.1 && hasVarToken (promoted.1.getD "") then
                "low" else "medium")
            else if pyTruthy promoted.1 || pyTruthy promoted.2 then "high"
            else "medium"
          some ⟨full_name, promoted.1, promoted.2, table, operation, li.1,
            confidence, has_vars⟩))

/-- A `qualified_tables` entry. -/
structure QualifiedTable where
  full_name : String
  database : Option String
  schema : Option String
  table : String
  deriving DecidableEq, Repr

/-- `DatabaseContext` (lines 34-46; the derived `summary` counters of
`to_dict` are omitted). -/
structure DatabaseContext where
  databases : List String
  schemas : List String
  use_statements : List UseStatement
  source_tables : List TableReference
  target_tables : List TableReference
  qualified_tables : List QualifiedTable
  unqualified_tables : List String
  active_database : Option String
  variables_found : List String
  deriving DecidableEq, Repr

/-- `extract_databases_and_schemas(text)` (lines 286-389). -/
def extract_databases_and_schemas (text : String) : DatabaseContext :=
  let use_stmts := extract_use_statements text
  let active_database := (use_stmts.getLast?).map (fun u => u.database)
  let all_variables := extract_variables text
  let source_refs :=
    extract_table_references text "SELECT" (tableRefMatcher fromPrefix)
      active_database ++
    extract_table_references text "JOIN" (tableRefMatcher joinPrefix)
      active_database
  let target_refs :=
    extract_table_references text "INSERT" (tableRefMatcher insertPrefix)
      active_database ++
    extract_table_references text "CREATE" (tableRefMatcher createPrefix)
      active_database ++
    extract_table_references text "MERGE" (tableRefMatcher mergePrefix)
      active_database ++
    extract_table_references text "UPDATE" (tableRefMatcher updatePrefix)
      active_database ++
    extract_table_references text "DELETE" (tableRefMatcher deletePrefix)
      active_database ++
    extract_table_references text "TRUNCATE" (tableRefMatcher truncatePrefix)
      active_database
  let st := (source_refs ++ target_refs).foldl
    (fun (acc : List String × List String × List QualifiedTable × List String) ref =>
      let dbs := if pyTruthy ref.database && !hasVarToken (ref.database.getD "") then
          addUnique acc.1 (ref.database.getD "") else acc.1
      let schemas := if pyTruthy ref.schema then
          addUnique acc.2.1 (ref.schema.getD "") else acc.2.1
      let quals := if pyTruthy ref.database || pyTruthy ref.schema then
          acc.2.2.1 ++ [⟨ref.full_name, ref.database, ref.schema, ref.table⟩]
        else acc.2.2.1
      let unquals := if pyTruthy ref.database || pyTruthy ref.schema then
          acc.2.2.2 else addUnique acc.2.2.2 ref.table
      (dbs, schemas, quals, unquals))
    ([], [], [], [])
  let databases := use_stmts.foldl (fun d u => addUnique d u.database) st.1
  { databases := pySorted databases
    schemas := pySorted st.2.1
    use_statements := use_stmts
    source_tables := source_refs
    target_tables := target_refs
    qualified_tables := st.2.2.1
    unqualified_tables := pySorted st.2.2.2
    active_database := active_database
    variables_found := all_variables }

/-- The C8 example input: a context-setting statement followed by an
unqualified select. -/
def c8Sql : String := "USE sales;\nSELECT * FROM customers"

/-! ## Theorems -/

theorem mem_sortedInsert (x a : String) (l : List String) :
    a ∈ sortedInsert x l ↔ a = x ∨ a ∈ l := by
  induction l with
  | nil => simp [sortedInsert]
  | cons y ys ih =>
    simp only [sortedInsert]
    by_cases h : pyStrLe x y
    · simp [h]
    · simp only [h, Bool.false_eq_true, if_false, List.mem_cons, ih]
      tauto

theorem mem_pySorted (a : String) (l : List String) :
    a ∈ pySorted l ↔ a ∈ l := by
  induction l with
  | nil => simp [pySorted]
  | cons y ys ih =>
    simp only [pySorted, List.foldr_cons] at *
    rw [mem_sortedInsert]
    simp [ih]

theorem splitName_length {cs pre after : List Char}
    (h : splitName cs = some (pre, after)) : after.length < cs.length := by
  have key : cs.length = (cs.takeWhile (fun c => c ≠ '}')).length +
      (cs.dropWhile (fun c => c ≠ '}')).length := by
    rw [← List.length_append, List.takeWhile_append_dropWhile]
  unfold splitName at h
  split at h
  case _ a heq =>
    simp only at h
    split at h
    · exact absurd h (by simp)
    · cases h
      rw [heq] at key
      simp only [List.length_cons] at key
      omega
  case _ => exact absurd h (by simp)

theorem scanStep_eq_none {cs : List Char} (h : scanStep cs = none) : cs = [] := by
  rw [scanStep.eq_def] at h
  split at h
  · rfl
  · split at h <;> simp at h
  · simp at h

theorem scanStep_eq_inr {cs rest : List Char} {c : Char}
    (h : scanStep cs = some (.inr (c, rest))) : cs = c :: rest := by
  rw [scanStep.eq_def] at h
  split at h
  · simp at h
  · split at h
    · simp at h
    · simp only [Option.some_inj, Sum.inr.injEq, Prod.mk.injEq] at h
      rw [← h.1, ← h.2]
  · simp only [Option.some_inj, Sum.inr.injEq, Prod.mk.injEq] at h
    rw [← h.1, ← h.2]

theorem splitName_spec {cs name after : List Char}
    (h : splitName cs = some (name, after)) :
    cs = name ++ '}' :: after ∧ name ≠ [] ∧ ∀ x ∈ name, x ≠ '}' := by
  unfold splitName at h
  split at h
  case _ a heq =>
    simp only at h
    split at h
    · exact absurd h (by simp)
    · rename_i hpre
      cases h
      refine ⟨?_, hpre, ?_⟩
      · conv_lhs => rw [← List.takeWhile_append_dropWhile
          (p := fun c => c ≠ '}') (l := cs)]
        rw [heq]
      · intro x hx
        have := List.mem_takeWhile_imp hx
        simpa using this
  case _ => exact absurd h (by simp)

theorem scanStep_eq_inl {cs name after : List Char}
    (h : scanStep cs = some (.inl (name, after))) :
    cs = '$' :: '{' :: (name ++ '}' :: after) ∧ name ≠ [] ∧
      ∀ x ∈ name, x ≠ '}' := by
  rw [scanStep.eq_def] at h
  split at h
  · simp at h
  · rename_i rest
    split at h
    case _ nm af hsp =>
      simp only [Option.some_inj, Sum.inl.injEq, Prod.mk.injEq] at h
      obtain ⟨h1, h2⟩ := h
      subst h1; subst h2
      obtain ⟨he, hne, hbr⟩ := splitName_spec hsp
      exact ⟨by rw [he], hne, hbr⟩
    · simp at h
  · simp at h

theorem takeWhile_ne_append (name after : List Char)
    (hbr : ∀ x ∈ name, x ≠ '}') :
    (name ++ '}' :: after).takeWhile (fun c => c ≠ '}') = name := by
  induction name with
  | nil =>
    rw [List.nil_append, List.takeWhile_cons, if_neg (by decide)]
  | cons x xs ih =>
    have hx : x ≠ '}' := hbr x (by simp)
    rw [List.cons_append, List.takeWhile_cons, if_pos (decide_eq_true hx),
      ih (fun y hy => hbr y (List.mem_cons_of_mem x hy))]

theorem dropWhile_ne_append (name after : List Char)
    (hbr : ∀ x ∈ name, x ≠ '}') :
    (name ++ '}' :: after).dropWhile (fun c => c ≠ '}') = '}' :: after := by
  induction name with
  | nil =>
    rw [List.nil_append, List.dropWhile_cons, if_neg (by decide)]
  | cons x xs ih =>
    have hx : x ≠ '}' := hbr x (by simp)
    rw [List.cons_append, List.dropWhile_cons, if_pos (decide_eq_true hx),
      ih (fun y hy => hbr y (List.mem_cons_of_mem x hy))]

/-- Tokens can be scanned back out of the text they were printed into. -/
theorem splitName_build (name after : List Char) (hne : name ≠ [])
    (hbr : ∀ x ∈ name, x ≠ '}') :
    splitName (name ++ '}' :: after) = some (name, after) := by
  unfold splitName
  rw [dropWhile_ne_append name after hbr]
  simp only
  rw [takeWhile_ne_append name after hbr, if_neg hne]

theorem scanStep_build (name after : List Char) (hne : name ≠ [])
    (hbr : ∀ x ∈ name, x ≠ '}') :
    scanStep ('$' :: '{' :: (name ++ '}' :: after)) =
      some (.inl (name, after)) := by
  show (match splitName (name ++ '}' :: after) with
    | some (nm, af) => some (Sum.inl (nm, af))
    | none => some (Sum.inr ('$', '{' :: (name ++ '}' :: after)))) = _
  rw [splitName_build name after hne hbr]

example : resolveStringD "a." [] = ("a.", []) := by rfl

example :
    resolveStringD (varToken "x" ++ "/y") [("x", "v")] = ("v/y", []) := by
  rfl

example :
    resolveStringD (varToken "x" ++ "/" ++ varToken "q") [("x", "v")] =
      ("v/" ++ varToken "q", ["q"]) := by
  rfl

-- transitive substitution: x -> ${y}, y -> ok

example :
    resolveStringD (varToken "x") [("x", varToken "y"), ("y", "ok")] =
      ("ok", []) := by
  rfl

-- the two-cycle: the value of A is `${B}`, ten flip-flopping passes end
-- back at `${B}`, and the leftover token name B is reported

example :
    resolveStringD (varToken "B")
      [("A", varToken "B"), ("B", varToken "A")] =
      (varToken "B", ["B"]) := by
  rfl

example :
    parse_properties_text "# c\na = 1\nb: 2\n\na=3" = [("a", "3"), ("b", "2")] := by
  rfl

/-! ## Lemmas about the token scanner and `resolve_string` -/

theorem strEta (s : String) : String.mk s.data = s := rfl

theorem varToken_data (n : String) :
    (varToken n).data = '$' :: '{' :: (n.data ++ ['}']) := by
  show ("$\x7b".data ++ n.data) ++ "\x7d".data = _
  simp

theorem subPassF_nil (lk : List (String × String)) (fuel : Nat)
    (un : List String) : subPassF lk fuel [] un = ([], false, un) := by
  cases fuel <;> rfl

theorem findAllF_nil (fuel : Nat) : findAllF fuel [] = [] := by
  cases fuel <;> rfl

theorem mem_addUnique (l : List String) (x a : String) :
    a ∈ addUnique l x ↔ a = x ∨ a ∈ l := by
  unfold addUnique
  by_cases h : x ∈ l
  · simp only [if_pos h]
    constructor
    · exact Or.inr
    · rintro (rfl | ha)
      · exact h
      · exact ha
  · simp [if_neg h, or_comm]

theorem mem_foldl_addUnique_of_mem (l : List String) (acc : List String)
    (a : String) (ha : a ∈ acc) : a ∈ l.foldl addUnique acc := by
  induction l generalizing acc with
  | nil => exact ha
  | cons x xs ih =>
    exact ih (addUnique acc x) ((mem_addUnique acc x a).mpr (Or.inr ha))

theorem mem_foldl_addUnique_self (l : List String) (acc : List String)
    (a : String) (ha : a ∈ l) : a ∈ l.foldl addUnique acc := by
  induction l generalizing acc with
  | nil => cases ha
  | cons x xs ih =>
    rcases List.mem_cons.mp ha with rfl | h
    · exact mem_foldl_addUnique_of_mem xs (addUnique acc a)
        a ((mem_addUnique acc a a).mpr (Or.inl rfl))
    · exact ih (addUnique acc x) h

theorem foldl_addUnique_noop (l : List String) (acc : List String)
    (h : ∀ a ∈ l, a ∈ acc) : l.foldl addUnique acc = acc := by
  induction l with
  | nil => rfl
  | cons x xs ih =>
    have hx : addUnique acc x = acc := by
      unfold addUnique
      rw [if_pos (h x (by simp))]
    rw [List.foldl_cons, hx]
    exact ih (fun a ha => h a (List.mem_cons_of_mem x ha))

/-- A substitution pass over a string none of whose token names are in
the lookup changes nothing: the output characters are the input, the
`changed` flag is false, and the token names are appended (deduplicated)
to the unresolved accumulator. -/
theorem subPassF_no_hit (lk : List (String × String)) (fuel : Nat) :
    ∀ cs un, (∀ n ∈ findAllF fuel cs, dget lk n = none) →
      subPassF lk fuel cs un = (cs, false, (findAllF fuel cs).foldl addUnique un) := by
  induction fuel with
  | zero => intro cs un _; rfl
  | succ f ih =>
    intro cs un h
    cases hs : scanStep cs with
    | none =>
      have hcs := scanStep_eq_none hs
      subst hcs
      simp [subPassF, findAllF, hs]
    | some x =>
      cases x with
      | inl p =>
        obtain ⟨name, after⟩ := p
        have hfa : findAllF (f + 1) cs = String.mk name :: findAllF f after := by
          simp only [findAllF, hs]
        have h0 : dget lk (String.mk name) = none :=
          h _ (by rw [hfa]; exact List.mem_cons_self _ _)
        have hcs := (scanStep_eq_inl hs).1
        have ihh := ih after (addUnique un (String.mk name))
          (fun n hn => h n (by rw [hfa]; exact List.mem_cons_of_mem _ hn))
        simp only [subPassF, hs, h0, ihh, hfa, List.foldl_cons]
        rw [hcs]
      | inr p =>
        obtain ⟨c, rest⟩ := p
        have hfa : findAllF (f + 1) cs = findAllF f rest := by
          simp only [findAllF, hs]
        have hcs := scanStep_eq_inr hs
        have ihh := ih rest un (fun n hn => h n (by rw [hfa]; exact hn))
        simp only [subPassF, hs, ihh, hfa]
        rw [hcs]

theorem subPass_no_hit (lk : List (String × String)) (cs : List Char)
    (un : List String) (h : ∀ n ∈ findAllTokens cs, dget lk n = none) :
    subPass lk cs un = (cs, false, (findAllTokens cs).foldl addUnique un) :=
  subPassF_no_hit lk cs.length cs un h

/-- `resolve_string` on a string with no in-lookup token: the string
comes back verbatim and the unresolved list is the deduplicated token
name list. -/
theorem resolve_string_no_hit (s : String) (lk : List (String × String))
    (d : Nat) (h : ∀ n ∈ findAllTokens s.data, dget lk n = none) :
    resolve_string s lk d = (s, (findAllTokens s.data).foldl addUnique []) := by
  unfold resolve_string
  cases d with
  | zero =>
    show (String.mk s.data, (findAllTokens s.data).foldl addUnique []) = _
    rw [strEta]
  | succ d2 =>
    have hr := subPass_no_hit lk s.data [] h
    simp only [resolveLoop, hr, Bool.false_eq_true, if_false]
    have habsorb : (findAllTokens s.data).foldl addUnique
        ((findAllTokens s.data).foldl addUnique []) =
        (findAllTokens s.data).foldl addUnique [] :=
      foldl_addUnique_noop _ _
        (fun a ha => mem_foldl_addUnique_self _ _ a ha)
    simp only [habsorb, strEta]

/-- A one-token string `${n}` whose name hits the lookup substitutes to
the looked-up value in one pass. -/
theorem subPass_token_hit (lk : List (String × String)) (n v : String)
    (un : List String) (hne : n.data ≠ []) (hbr : ∀ x ∈ n.data, x ≠ '}')
    (hv : dget lk n = some v) :
    subPass lk (varToken n).data un = (v.data, true, un) := by
  rw [varToken_data]
  show subPassF lk ('$' :: '{' :: (n.data ++ ['}'])).length _ un = _
  have hlen : ('$' :: '{' :: (n.data ++ ['}'])).length = (n.data.length + 2) + 1 := by
    simp [List.length_append]
  rw [hlen]
  have hscan : scanStep ('$' :: '{' :: (n.data ++ ['}'])) =
      some (.inl (n.data, [])) := scanStep_build n.data [] hne hbr
  rw [subPassF, hscan]
  simp only [strEta, hv, subPassF_nil, List.append_nil]

theorem findAllTokens_token (n : String) (hne : n.data ≠ [])
    (hbr : ∀ x ∈ n.data, x ≠ '}') :
    findAllTokens (varToken n).data = [n] := by
  rw [varToken_data]
  show findAllF ('$' :: '{' :: (n.data ++ ['}'])).length _ = _
  have hlen : ('$' :: '{' :: (n.data ++ ['}'])).length = (n.data.length + 2) + 1 := by
    simp [List.length_append]
  rw [hlen]
  have hscan : scanStep ('$' :: '{' :: (n.data ++ ['}'])) =
      some (.inl (n.data, [])) := scanStep_build n.data [] hne hbr
  rw [findAllF, hscan]
  simp only [strEta, findAllF_nil]

/-- In a two-cycle `X ↦ ${Y}`, `Y ↦ ${X}`, every substitution pass
flips the one token for the other, so an even pass budget returns the
starting token. -/
theorem resolveLoop_cycle (lk : List (String × String)) (X Y : String)
    (un : List String)
    (hX : dget lk X = some (varToken Y)) (hY : dget lk Y = some (varToken X))
    (hXne : X.data ≠ []) (hYne : Y.data ≠ [])
    (hXbr : ∀ c ∈ X.data, c ≠ '}') (hYbr : ∀ c ∈ Y.data, c ≠ '}') :
    ∀ k, resolveLoop lk (2 * k) (varToken Y).data un = ((varToken Y).data, un) := by
  intro k
  induction k with
  | zero => rfl
  | succ m ih =>
    have h1 : 2 * (m + 1) = (2 * m + 1) + 1 := by ring
    rw [h1]
    simp only [resolveLoop, subPass_token_hit lk Y (varToken X) un hYne hYbr hY,
      if_true]
    simp only [resolveLoop, subPass_token_hit lk X (varToken Y) un hXne hXbr hX,
      if_true]
    exact ih

/-- `resolve_string` at the default cap on the cyclically defined token
`${Y}`: ten flip-flopping passes end back at the literal `${Y}`, and the
leftover name `Y` is reported. -/
theorem resolveStringD_cycle (lk : List (String × String)) (X Y : String)
    (hX : dget lk X = some (varToken Y)) (hY : dget lk Y = some (varToken X))
    (hXne : X.data ≠ []) (hYne : Y.data ≠ [])
    (hXbr : ∀ c ∈ X.data, c ≠ '}') (hYbr : ∀ c ∈ Y.data, c ≠ '}') :
    resolveStringD (varToken Y) lk = (varToken Y, [Y]) := by
  unfold resolveStringD resolve_string
  have h10 : (10 : Nat) = 2 * 5 := by norm_num
  rw [h10, resolveLoop_cycle lk X Y [] hX hY hXne hYne hXbr hYbr 5]
  simp only [findAllTokens_token Y hYne hYbr, strEta]
  rfl

/-! ## Dict lemmas -/

theorem dget_nil (k : String) : dget ([] : List (String × α)) k = none := rfl

theorem dget_cons (kv : String × α) (d : List (String × α)) (k2 : String) :
    dget (kv :: d) k2 = if kv.1 = k2 then some kv.2 else dget d k2 := by
  simp only [dget]
  by_cases h : kv.1 = k2
  · rw [List.find?_cons_of_pos _ (by simp [h])]
    simp [h]
  · rw [List.find?_cons_of_neg _ (by simp [h]), if_neg h]

theorem dget_dset (d : List (String × α)) (k : String) (v : α) (k2 : String) :
    dget (dset d k v) k2 = if k = k2 then some v else dget d k2 := by
  induction d with
  | nil =>
    show dget [(k, v)] k2 = _
    rw [dget_cons]
  | cons kv rest ih =>
    simp only [dset]
    by_cases hk : kv.1 = k
    · rw [if_pos hk, dget_cons, dget_cons]
      by_cases h : k = k2
      · simp [h]
      · have hne : kv.1 ≠ k2 := by rw [hk]; exact h
        simp [h, hne]
    · rw [if_neg hk, dget_cons]
      by_cases hv : kv.1 = k2
      · have hne : k ≠ k2 := fun he => hk (by rw [hv, he])
        simp [hv, hne, dget_cons]
      · simp [hv, ih, dget_cons]

/-- Folding assignments into a dict realizes "last assignment wins". -/
theorem dget_foldl_dset (pairs : List (String × String))
    (init : List (String × String)) (k : String) :
    dget (pairs.foldl (fun out kv => dset out kv.1 kv.2) init) k =
      match pairs.reverse.find? (fun kv => kv.1 = k) with
      | some kv => some kv.2
      | none => dget init k := by
  induction pairs generalizing init with
  | nil => simp
  | cons p ps ih =>
    simp only [List.foldl_cons, List.reverse_cons, List.find?_append]
    rw [ih]
    cases hf : ps.reverse.find? (fun kv => kv.1 = k) with
    | some kv => simp
    | none =>
      simp only [Option.none_or]
      by_cases hp : p.1 = k
      · simp [List.find?, hp, dget_dset]
      · simp [List.find?, hp, dget_dset]

theorem chooseStep_none (n : String) (d : VarDef) :
    chooseStep n none d = if d.name = n then some d else none := by
  unfold chooseStep
  split <;> rfl

theorem chooseStep_some (n : String) (c d : VarDef) :
    chooseStep n (some c) d =
      if d.name = n then
        (if precedence d.kind > precedence c.kind then some d else some c)
      else some c := by
  unfold chooseStep
  split <;> rfl

theorem dget_mergeStep (st : List (String × VarDef) × List (String × List VarDef))
    (d : VarDef) (n : String) :
    dget (mergeStep st d).1 n = chooseStep n (dget st.1 n) d := by
  by_cases hn : d.name = n
  · subst hn
    simp only [mergeStep]
    cases h : dget st.1 d.name with
    | none => simp [h, chooseStep_none, dget_dset]
    | some c =>
      simp only [h, chooseStep_some, if_pos rfl]
      by_cases hp : precedence d.kind > precedence c.kind
      · simp [hp, dget_dset]
      · simp [hp, h]
  · simp only [mergeStep]
    cases h : dget st.1 d.name with
    | none =>
      simp [h, chooseStep_none, dget_dset, hn]
      cases hx : dget st.1 n <;> simp [chooseStep, hn]
    | some c =>
      simp only [h]
      by_cases hp : precedence d.kind > precedence c.kind
      · simp only [if_pos hp]
        rw [dget_dset]
        simp only [if_neg hn]
        cases hx : dget st.1 n with
        | none => rw [chooseStep_none, if_neg hn]
        | some a => rw [chooseStep_some, if_neg hn]
      · simp only [if_neg hp]
        cases hx : dget st.1 n with
        | none => rw [chooseStep_none, if_neg hn]
        | some a => rw [chooseStep_some, if_neg hn]

theorem dget_merge_foldl (L : List VarDef)
    (st : List (String × VarDef) × List (String × List VarDef)) (n : String) :
    dget (L.foldl mergeStep st).1 n = L.foldl (chooseStep n) (dget st.1 n) := by
  induction L generalizing st with
  | nil => rfl
  | cons d ds ih => simp [List.foldl_cons, ih, dget_mergeStep]

theorem precedence_le_three (k : String) : precedence k ≤ 3 := by
  unfold precedence
  repeat' split
  all_goals omega

theorem precedence_lt_three {k : String} (h : k ≠ "properties") :
    precedence k < 3 := by
  unfold precedence
  rw [if_neg h]
  repeat' split
  all_goals omega

/-- Once a properties-kind definition is chosen, no later definition can
displace it (no kind ranks strictly above `properties`). -/
theorem chooseFold_stay (L : List VarDef) (n : String) (w : VarDef)
    (hw : w.kind = "properties") :
    L.foldl (chooseStep n) (some w) = some w := by
  induction L with
  | nil => rfl
  | cons d ds ih =>
    have h3 : precedence w.kind = 3 := by rw [hw]; rfl
    have hle : ¬ precedence d.kind > precedence w.kind := by
      have := precedence_le_three d.kind
      omega
    simp only [List.foldl_cons, chooseStep_some]
    by_cases hn : d.name = n
    · simp [hn, hle, ih]
    · simp [hn, ih]

/-- When some definition of `n` has kind `properties`, the fold that
`merge_definitions` performs selects the first such definition,
whatever other kinds appear in whatever order. -/
theorem chooseFold_first_properties (L : List VarDef) (n : String)
    (acc : Option VarDef)
    (hacc : ∀ c, acc = some c → precedence c.kind < 3)
    (hex : ∃ d ∈ L, d.name = n ∧ d.kind = "properties") :
    L.foldl (chooseStep n) acc =
      L.find? (fun d => d.name = n && d.kind == "properties") := by
  induction L generalizing acc with
  | nil => simp at hex
  | cons d ds ih =>
    by_cases hd : d.name = n ∧ d.kind = "properties"
    · have hstep : chooseStep n acc d = some d := by
        cases h : acc with
        | none => rw [chooseStep_none, if_pos hd.1]
        | some c =>
          have h1 : precedence c.kind < 3 := hacc c h
          have h2 : precedence d.kind = 3 := by rw [hd.2]; rfl
          rw [chooseStep_some, if_pos hd.1, if_pos (by omega)]
      simp only [List.foldl_cons, hstep, List.find?]
      rw [chooseFold_stay ds n d hd.2]
      simp [hd.1, hd.2]
    · have hpred : ¬ (d.name = n && d.kind == "properties") = true := by
        simpa using fun h1 h2 => hd ⟨h1, h2⟩
      have hex2 : ∃ e ∈ ds, e.name = n ∧ e.kind = "properties" := by
        obtain ⟨e, he, hn, hk⟩ := hex
        rcases List.mem_cons.mp he with h | h
        · exact absurd ⟨by rw [h] at hn; exact hn, by rw [h] at hk; exact hk⟩ hd
        · exact ⟨e, h, hn, hk⟩
      have hinv : ∀ c, chooseStep n acc d = some c → precedence c.kind < 3 := by
        intro c hc
        cases h : acc with
        | none =>
          rw [h, chooseStep_none] at hc
          by_cases hn : d.name = n
          · rw [if_pos hn] at hc
            cases hc
            exact precedence_lt_three (fun hk => hd ⟨hn, hk⟩)
          · rw [if_neg hn] at hc
            cases hc
        | some a =>
          rw [h, chooseStep_some] at hc
          by_cases hn : d.name = n
          · rw [if_pos hn] at hc
            by_cases hgt : precedence d.kind > precedence a.kind
            · rw [if_pos hgt] at hc
              cases hc
              exact precedence_lt_three (fun hk => hd ⟨hn, hk⟩)
            · rw [if_neg hgt] at hc
              cases hc
              exact hacc _ h
          · rw [if_neg hn] at hc
            cases hc
            exact hacc _ h
      simp only [List.foldl_cons, List.find?, hpred]
      exact ih (chooseStep n acc d) hinv hex2

theorem foldl_propLine_filterMap (lines : List String)
    (init : List (String × String)) :
    lines.foldl
        (fun out raw =>
          match propLineKV raw with
          | none => out
          | some kv => dset out kv.1 kv.2)
        init =
      (lines.filterMap propLineKV).foldl
        (fun out kv => dset out kv.1 kv.2) init := by
  induction lines generalizing init with
  | nil => rfl
  | cons l ls ih =>
    cases h : propLineKV l <;> simp [List.filterMap_cons, h, ih]

/-- **C10.**  Within a single properties-style file, when the same key
appears on multiple non-comment lines, `parse_properties_text` keeps
only the value of the last occurrence: the dict entry returned for any
key `k` is the value of the *last* line-level assignment to `k`
(each assignment overwrites the entry), so the merge never sees the
earlier occurrences of that key from the same file. -/
theorem C10_parse_properties_last_occurrence_wins (text : String) (k : String) :
    dget (parse_properties_text text) k =
      (((pySplitlines text).filterMap propLineKV).reverse.find?
        (fun kv => kv.1 = k)).map (fun kv => kv.2) := by
  unfold parse_properties_text
  rw [foldl_propLine_filterMap, dget_foldl_dset]
  cases hf : ((pySplitlines text).filterMap propLineKV).reverse.find?
      (fun kv => kv.1 = k) with
  | some kv => simp
  | none => simp [dget_nil]

/-- **C4.**  For every name defined with at least one `properties`-kind
definition and at least one `oozie_conf`-kind definition — in whatever
order the definitions are scanned — the winner chosen by
`merge_definitions` is a `properties`-kind definition, namely the first
properties-kind definition of that name encountered during the scan. -/
theorem C4_properties_kind_wins_merge (defs : List VarDef) (n : String)
    (hp : ∃ d ∈ defs, d.name = n ∧ d.kind = "properties")
    (_ho : ∃ d ∈ defs, d.name = n ∧ d.kind = "oozie_conf") :
    ∃ w, dget (merge_definitions [defs]).1 n = some w ∧
      w.kind = "properties" ∧
      defs.find? (fun d => d.name = n && d.kind == "properties") = some w := by
  have hch : dget (merge_definitions [defs]).1 n =
      defs.foldl (chooseStep n) none := by
    show dget (([defs]).foldl (fun st ds => ds.foldl mergeStep st) ([], [])).1 n = _
    simp only [List.foldl_cons, List.foldl_nil]
    rw [dget_merge_foldl]
    rfl
  rw [hch, chooseFold_first_properties defs n none (by intro c h; cases h) hp]
  have hsome : (defs.find? (fun d => d.name = n && d.kind == "properties")).isSome := by
    rw [List.find?_isSome]
    obtain ⟨d, hd, h1, h2⟩ := hp
    exact ⟨d, hd, by simp [h1, h2]⟩
  obtain ⟨w, hw⟩ := Option.isSome_iff_exists.mp hsome
  refine ⟨w, hw, ?_, hw⟩
  have hpw := List.find?_some hw
  simp only [Bool.and_eq_true, decide_eq_true_eq, beq_iff_eq] at hpw
  exact hpw.2

/-- Witness for C4: even though the `oozie_conf` definition of `x` is
scanned first, the winner is the first `properties` definition. -/
theorem C4_witness :
    ∃ w, dget (merge_definitions [c4Defs]).1 "x" = some w ∧
      w.kind = "properties" ∧
      c4Defs.find? (fun d => d.name = "x" && d.kind == "properties") = some w :=
  C4_properties_kind_wins_merge c4Defs "x" (by decide) (by decide)

/-! ## Claims C1, C2 and C6: the resolution engine -/

theorem merge_two (dA dB : VarDef) (hAB : dA.name ≠ dB.name) :
    merge_definitions [[dA, dB]] =
      ([(dA.name, dA), (dB.name, dB)],
       [(dA.name, [dA]), (dB.name, [dB])]) := by
  simp [merge_definitions, mergeStep, dget, dset, List.find?, hAB]

theorem cycleDefs_lookup (A B f1 f2 : String) (hAB : A ≠ B) :
    winnersLookup (cycleDefs A B f1 f2) =
      [(A, varToken B), (B, varToken A)] := by
  unfold winnersLookup cycleDefs
  rw [merge_two ⟨A, varToken B, f1, "properties"⟩ ⟨B, varToken A, f2, "properties"⟩
    (by simpa using hAB)]
  simp

theorem data_ne_nil_of_ne_empty {s : String} (h : s ≠ "") : s.data ≠ [] := by
  intro hd
  apply h
  have := congrArg String.mk hd
  rwa [strEta] at this

/-- **C1 (amended).**  For every pair of distinct names `A` and `B`
whose winner definitions are mutually cyclic (`A ↦ ${B}` and
`B ↦ ${A}`), the resolution pass terminates within the iteration cap
(ten passes of `resolve_string`) and never fails — but both names end
classified as *partially resolved* (they have winners, and leftovers
remain), not as unresolved: `still_unresolved_variables` is empty, and
both appear in `partially_resolved_variables` with their literal
`${...}` tokens intact in the returned values. -/
theorem C1_cycle_ends_partially_resolved (A B f1 f2 : String) (hAB : A ≠ B)
    (hA : A ≠ "") (hB : B ≠ "")
    (hAbr : ∀ c ∈ A.data, c ≠ '}') (hBbr : ∀ c ∈ B.data, c ≠ '}') :
    (∃ r ∈ (resolveRepositoryCore (cycleDefs A B f1 f2) noFindings
        noWorkflows []).partially_resolved_variables,
      r.name = A ∧ r.raw_value = varToken B ∧ r.resolved_value = varToken B ∧
        r.unresolved_parts = [B]) ∧
    (∃ r ∈ (resolveRepositoryCore (cycleDefs A B f1 f2) noFindings
        noWorkflows []).partially_resolved_variables,
      r.name = B ∧ r.raw_value = varToken A ∧ r.resolved_value = varToken A ∧
        r.unresolved_parts = [A]) ∧
    (resolveRepositoryCore (cycleDefs A B f1 f2) noFindings
        noWorkflows []).resolved_variables = [] ∧
    (resolveRepositoryCore (cycleDefs A B f1 f2) noFindings
        noWorkflows []).still_unresolved_variables = [] := by
  have hAd : A.data ≠ [] := data_ne_nil_of_ne_empty hA
  have hBd : B.data ≠ [] := data_ne_nil_of_ne_empty hB
  have hlk := cycleDefs_lookup A B f1 f2 hAB
  have hgA : dget (winnersLookup (cycleDefs A B f1 f2)) A = some (varToken B) := by
    rw [hlk, dget_cons]
    simp
  have hgB : dget (winnersLookup (cycleDefs A B f1 f2)) B = some (varToken A) := by
    rw [hlk, dget_cons]
    simp only
    rw [if_neg hAB, dget_cons, if_pos rfl]
  have hresB : resolveStringD (varToken B) (winnersLookup (cycleDefs A B f1 f2)) =
      (varToken B, [B]) :=
    resolveStringD_cycle _ A B hgA hgB hAd hBd hAbr hBbr
  have hresA : resolveStringD (varToken A) (winnersLookup (cycleDefs A B f1 f2)) =
      (varToken A, [A]) :=
    resolveStringD_cycle _ B A hgB hgA hBd hAd hBbr hAbr
  have hseen : seenNames (cycleDefs A B f1 f2) = pySorted [A, B] := by
    unfold seenNames
    rw [hlk]
    rfl
  have hmemA : A ∈ seenNames (cycleDefs A B f1 f2) := by
    rw [hseen, mem_pySorted]
    simp
  have hmemB : B ∈ seenNames (cycleDefs A B f1 f2) := by
    rw [hseen, mem_pySorted]
    simp
  have hfeA : (A, varToken B, [B]) ∈ finalEntriesOf (cycleDefs A B f1 f2) := by
    unfold finalEntriesOf
    refine List.mem_filterMap.mpr ⟨A, hmemA, ?_⟩
    rw [hgA]
    exact congrArg (fun x => some (A, x)) hresB
  have hfeB : (B, varToken A, [A]) ∈ finalEntriesOf (cycleDefs A B f1 f2) := by
    unfold finalEntriesOf
    refine List.mem_filterMap.mpr ⟨B, hmemB, ?_⟩
    rw [hgB]
    exact congrArg (fun x => some (B, x)) hresA
  have hfeAll : ∀ e ∈ finalEntriesOf (cycleDefs A B f1 f2),
      e.2.2 = [B] ∨ e.2.2 = [A] := by
    intro e he
    obtain ⟨k, hk, hke⟩ := List.mem_filterMap.mp he
    rw [hseen, mem_pySorted] at hk
    rcases List.mem_cons.mp hk with rfl | hk2
    · rw [hgA] at hke
      rw [show Option.map (fun v => (k, resolveStringD v (winnersLookup (cycleDefs k B f1 f2)))) (some (varToken B)) = some (k, resolveStringD (varToken B) (winnersLookup (cycleDefs k B f1 f2))) from rfl, hresB] at hke
      cases hke
      exact Or.inl rfl
    · have : k = B := by simpa using hk2
      subst this
      rw [show Option.map (fun v => (k, resolveStringD v (winnersLookup (cycleDefs A k f1 f2)))) (dget (winnersLookup (cycleDefs A k f1 f2)) k) = Option.map (fun v => (k, resolveStringD v (winnersLookup (cycleDefs A k f1 f2)))) (some (varToken A)) from by rw [hgB], show Option.map (fun v => (k, resolveStringD v (winnersLookup (cycleDefs A k f1 f2)))) (some (varToken A)) = some (k, resolveStringD (varToken A) (winnersLookup (cycleDefs A k f1 f2))) from rfl, hresA] at hke
      cases hke
      exact Or.inr rfl
  refine ⟨?_, ?_, ?_, ?_⟩
  · refine ⟨PartiallyResolvedVariable.mk A
      ((dget (winnersLookup (cycleDefs A B f1 f2)) A).getD "") (varToken B) [B]
      (auditOf (allDefsAudit (cycleDefs A B f1 f2)) A), ?_, rfl, ?_, rfl, rfl⟩
    · exact List.mem_filterMap.mpr ⟨(A, varToken B, [B]), hfeA, by
        rw [if_pos (by simp)]⟩
    · show (dget (winnersLookup (cycleDefs A B f1 f2)) A).getD "" = varToken B
      rw [hgA]
      rfl
  · refine ⟨PartiallyResolvedVariable.mk B
      ((dget (winnersLookup (cycleDefs A B f1 f2)) B).getD "") (varToken A) [A]
      (auditOf (allDefsAudit (cycleDefs A B f1 f2)) B), ?_, rfl, ?_, rfl, rfl⟩
    · exact List.mem_filterMap.mpr ⟨(B, varToken A, [A]), hfeB, by
        rw [if_pos (by simp)]⟩
    · show (dget (winnersLookup (cycleDefs A B f1 f2)) B).getD "" = varToken A
      rw [hgB]
      rfl
  · show resolvedVarsOf (cycleDefs A B f1 f2) = []
    unfold resolvedVarsOf
    rw [List.filterMap_eq_nil_iff]
    intro e he
    rcases hfeAll e he with h | h <;> rw [h] <;> simp
  · show stillUnresolvedOf (cycleDefs A B f1 f2) = []
    unfold stillUnresolvedOf
    rw [List.filterMap_eq_nil_iff]
    intro k hk
    rw [hseen, mem_pySorted] at hk
    rcases List.mem_cons.mp hk with rfl | hk2
    · rw [hgA]
      rfl
    · have : k = B := by simpa using hk2
      subst this
      rw [hgB]
      rfl

/-- Counterexample for C1 as stated: with `A ↦ ${B}` and `B ↦ ${A}` the
run terminates and keeps the literal tokens, but the two names are *not*
classified as unresolved — `still_unresolved_variables` is empty and
both names land in `partially_resolved_variables`. -/
theorem C1_counterexample :
    (resolveRepositoryCore c1Defs noFindings noWorkflows
        []).still_unresolved_variables = [] ∧
    (resolveRepositoryCore c1Defs noFindings noWorkflows
        []).partially_resolved_variables.map
        (fun r => (r.name, r.resolved_value, r.unresolved_parts)) =
      [("A", varToken "B", ["B"]), ("B", varToken "A", ["A"])] := by
  constructor <;> decide

/-- Witness for the amended C1 at the concrete pair `A`, `B`. -/
theorem C1_witness :
    (∃ r ∈ (resolveRepositoryCore (cycleDefs "A" "B" "f1" "f2") noFindings
        noWorkflows []).partially_resolved_variables,
      r.name = "A" ∧ r.raw_value = varToken "B" ∧
        r.resolved_value = varToken "B" ∧ r.unresolved_parts = ["B"]) ∧
    (∃ r ∈ (resolveRepositoryCore (cycleDefs "A" "B" "f1" "f2") noFindings
        noWorkflows []).partially_resolved_variables,
      r.name = "B" ∧ r.raw_value = varToken "A" ∧
        r.resolved_value = varToken "A" ∧ r.unresolved_parts = ["A"]) ∧
    (resolveRepositoryCore (cycleDefs "A" "B" "f1" "f2") noFindings
        noWorkflows []).resolved_variables = [] ∧
    (resolveRepositoryCore (cycleDefs "A" "B" "f1" "f2") noFindings
        noWorkflows []).still_unresolved_variables = [] :=
  C1_cycle_ends_partially_resolved "A" "B" "f1" "f2" (by decide) (by decide)
    (by decide) (by decide) (by decide)

/-- **C2.**  The output partition is *not* complete: the names `X`
(referenced in a definition value), `W` (referenced in a finding value)
and `L` (referenced in a lineage table name) are referenced in the
corpus, yet none of the three returned sets contains any of them —
`resolve_repository` populates `seen` only with defined names, and the
`vars_seen` set it collects from findings/workflows/lineage is never
read. -/
theorem C2_referenced_names_escape_partition :
    ("X" ∈ specReferencedNames c2Defs c2Findings noWorkflows c2Lineage ∧
     "W" ∈ specReferencedNames c2Defs c2Findings noWorkflows c2Lineage ∧
     "L" ∈ specReferencedNames c2Defs c2Findings noWorkflows c2Lineage) ∧
    (∀ r ∈ (resolveRepositoryCore c2Defs c2Findings noWorkflows
        c2Lineage).resolved_variables,
      r.name ≠ "X" ∧ r.name ≠ "W" ∧ r.name ≠ "L") ∧
    (∀ r ∈ (resolveRepositoryCore c2Defs c2Findings noWorkflows
        c2Lineage).partially_resolved_variables,
      r.name ≠ "X" ∧ r.name ≠ "W" ∧ r.name ≠ "L") ∧
    (∀ r ∈ (resolveRepositoryCore c2Defs c2Findings noWorkflows
        c2Lineage).still_unresolved_variables,
      r.name ≠ "X" ∧ r.name ≠ "W" ∧ r.name ≠ "L") := by
  decide

/-- **C6 (amended).**  `resolve_string` is a no-op on every string none
of whose `${...}` token names is present in the lookup: the string is
returned unchanged (in particular, tokens with absent names are left in
place, never deleted, and are reported as this string's unresolved
names), and re-applying `resolve_string` to the returned string again
returns it unchanged. -/
theorem C6_resolve_string_idempotent_no_hit (s : String)
    (lk : List (String × String))
    (h : ∀ n ∈ findAllTokens s.data, dget lk n = none) :
    resolveStringD s lk = (s, (findAllTokens s.data).foldl addUnique []) ∧
    (resolveStringD (resolveStringD s lk).1 lk).1 = (resolveStringD s lk).1 := by
  have h1 : resolveStringD s lk = (s, (findAllTokens s.data).foldl addUnique []) := by
    unfold resolveStringD
    exact resolve_string_no_hit s lk 10 h
  have hfst : (resolveStringD s lk).1 = s := by rw [h1]
  exact ⟨h1, by rw [hfst, hfst]⟩

/-- Witness for the amended C6: a storage path whose only token,
`${data_root}`, is absent from the lookup. -/
theorem C6_witness :
    resolveStringD ("hdfs://nn/" ++ varToken "data_root" ++ "/out")
        [("other", "1")] =
      ("hdfs://nn/" ++ varToken "data_root" ++ "/out",
       (findAllTokens ("hdfs://nn/" ++ varToken "data_root" ++ "/out").data).foldl
         addUnique []) ∧
    (resolveStringD (resolveStringD ("hdfs://nn/" ++ varToken "data_root" ++ "/out")
        [("other", "1")]).1 [("other", "1")]).1 =
      (resolveStringD ("hdfs://nn/" ++ varToken "data_root" ++ "/out")
        [("other", "1")]).1 :=
  C6_resolve_string_idempotent_no_hit _ _ (by decide)

/-- Counterexample for C6 as stated: re-applying `resolve_string` to a
*returned* string is not always a no-op — on the three-cycle the first
application of the capped loop returns `${B}` and the second returns
`${C}`. -/
theorem C6_counterexample :
    (resolveStringD (resolveStringD (varToken "A") c6Lookup).1 c6Lookup).1 ≠
      (resolveStringD (varToken "A") c6Lookup).1 := by
  decide

/-- **C3.**  Scanned with a configured cap of `max_file_mb = 1`, the
2 MB file — which exceeds the configured cap — is *not* marked
`skipped_large`: the scanner itself stamps every entry `"ok"` (its
`cfg.max_file_bytes` is never consulted), and the enrichment pass reads
the file in full (its line count is filled in) because its size check
uses a hardcoded `10 * 1024 * 1024`, which also is what marks the 11 MB
file. -/
theorem C3_configured_size_cap_ignored :
    1 * 1024 * 1024 < 2 * 1024 * 1024 ∧
    (scan_repository c3Root 1 [] [] 3).map
        (fun e => (e.path, e.parse_status)) =
      [("data.sql", some "ok"), ("big.sql", some "ok")] ∧
    (filesIndexAfterCounts c3Root 1 [] [] 3).map
        (fun e => (e.path, e.parse_status, e.lines_count)) =
      [("data.sql", some "ok", some 1),
       ("big.sql", some "skipped_large", some 0)] := by
  decide

/-- **C5.**  `pom.xml` — whose extension also matches the `.xml`
extension rule — is classified `"xml_generic"`, not the Maven build
kind: the `ext == ".xml"` branch of `_detect_type_simple` precedes the
`name == "pom.xml"` branch, making the latter unreachable.  The other
fixed filename rules behave as the claim says (the orchestration
filenames are checked before the extension mapping, and the remaining
build filenames have no competing extension rule). -/
theorem C5_pom_xml_misclassified :
    detectTypeSimple "project/pom.xml" = "xml_generic" ∧
    detectTypeSimple "project/pom.xml" ≠ "build_maven" ∧
    detectTypeSimple "wf/workflow.xml" = "oozie_workflow_xml" ∧
    detectTypeSimple "wf/coordinator.xml" = "oozie_coordinator_xml" ∧
    detectTypeSimple "wf/bundle.xml" = "oozie_bundle_xml" ∧
    detectTypeSimple "x/build.gradle" = "build_gradle" ∧
    detectTypeSimple "x/build.sbt" = "build_sbt" ∧
    detectTypeSimple "x/requirements.txt" = "build_python_deps" := by
  decide

theorem strStarts_append (pre rest : String) :
    strStarts pre (pre ++ rest) = true := by
  unfold strStarts
  rw [List.isPrefixOf_iff_prefix]
  show pre.data <+: pre.data ++ rest.data
  exact List.prefix_append pre.data rest.data

theorem append_ne_empty_of_left_ne (q rest : String)
    (h : q ≠ "") : q ++ rest ≠ "" := by
  intro he
  apply h
  have hd : (q ++ rest).data = [] := by rw [he]
  have : q.data = [] := by
    have := (List.append_eq_nil).mp hd
    exact this.1
  have := congrArg String.mk this
  rwa [strEta] at this

/-- **C9.**  Orchestration parsing never fails past the caller: for
every XML parser oracle and every input string, `parse_workflow` returns
either a parsed workflow paired with the empty error message or `None`
paired with a typed `xml_parse_error:...` message; and for every read
outcome, `parse_workflow_xml` returns a record whose `parse_status` is
`"ok"`, a `read_error:...` message, or the `xml_parse_error:...`
message, with an empty action list whenever the status is not `"ok"`. -/
theorem C9_workflow_parse_total_typed_errors
    (fromstring : String → Except String Xml) (fuel : Nat)
    (xml_text path : String) (readResult : Except String String) :
    ((∃ wf, parse_workflow fromstring xml_text fuel = (some wf, "")) ∨
     (∃ e, parse_workflow fromstring xml_text fuel =
        (none, "xml_parse_error:" ++ e))) ∧
    ((parse_workflow_xml fromstring path readResult fuel).parse_status = "ok" ∨
     strStarts "read_error:"
       (parse_workflow_xml fromstring path readResult fuel).parse_status ∨
     strStarts "xml_parse_error:"
       (parse_workflow_xml fromstring path readResult fuel).parse_status) ∧
    ((parse_workflow_xml fromstring path readResult fuel).parse_status ≠ "ok" →
      (parse_workflow_xml fromstring path readResult fuel).actions = []) := by
  have hshape : ∀ t : String,
      (∃ wf, parse_workflow fromstring t fuel = (some wf, "")) ∨
      (∃ e, parse_workflow fromstring t fuel = (none, "xml_parse_error:" ++ e)) := by
    intro t
    cases h : fromstring t with
    | error e =>
      right
      exact ⟨e, by simp only [parse_workflow, h]⟩
    | ok root =>
      left
      exact ⟨_, by simp only [parse_workflow, h]; rfl⟩
  refine ⟨hshape xml_text, ?_, ?_⟩
  · cases hr : readResult with
    | error e =>
      right; left
      show strStarts "read_error:" (parse_workflow_xml fromstring path
        (Except.error e) fuel).parse_status = true
      exact strStarts_append "read_error:" e
    | ok t =>
      rcases hshape t with ⟨wf, hw⟩ | ⟨e, hw⟩
      · left
        simp only [parse_workflow_xml, hw]
      · right; right
        simp only [parse_workflow_xml, hw,
          if_neg (append_ne_empty_of_left_ne "xml_parse_error:" e (by decide))]
        exact strStarts_append "xml_parse_error:" e
  · intro hne
    cases hr : readResult with
    | error e => rfl
    | ok t =>
      rcases hshape t with ⟨wf, hw⟩ | ⟨e, hw⟩
      · exfalso
        apply hne
        rw [hr]
        simp only [parse_workflow_xml, hw]
      · simp only [parse_workflow_xml, hw]

theorem analyze_query_total (sql : String) :
    (analyze_query sql).total_complexity_score =
      (analyze_joins (normalize_sql sql)).join_complexity_score +
      (analyze_subqueries (normalize_sql sql) sql).subquery_complexity_score +
      (analyze_ctes (normalize_sql sql)).cte_complexity_score +
      (analyze_window_functions (normalize_sql sql)).window_complexity_score +
      (analyze_aggregates (normalize_sql sql)).aggregate_complexity_score +
      (analyze_set_operations (normalize_sql sql)).set_operation_complexity_score +
      (analyze_control_structures (normalize_sql sql)).control_complexity_score +
      (analyze_ddl (normalize_sql sql)).ddl_complexity_score := rfl

theorem analyze_query_level (sql : String) :
    (analyze_query sql).complexity_level =
      classify_complexity (analyze_query sql).total_complexity_score := rfl

theorem analyze_query_flags (sql : String) :
    (analyze_query sql).risk_flags =
      identify_risk_flags (analyze_joins (normalize_sql sql))
        (analyze_subqueries (normalize_sql sql) sql)
        (analyze_ctes (normalize_sql sql))
        (analyze_window_functions (normalize_sql sql))
        (analyze_aggregates (normalize_sql sql))
        (analyze_set_operations (normalize_sql sql)) := rfl

theorem join_score_eq (s : String) :
    (analyze_joins s).join_complexity_score =
      (analyze_joins s).total_joins * 5 +
      (analyze_joins s).cross_join_type_count * 15 +
      (if (analyze_joins s).has_self_join then 10 else 0) +
      ((analyze_joins s).total_joins - 3) * 3 := rfl

theorem subq_score_eq (c o : String) :
    (analyze_subqueries c o).subquery_complexity_score =
      (analyze_subqueries c o).total_subqueries * 8 +
      (analyze_subqueries c o).max_nesting_depth * 10 +
      (analyze_subqueries c o).correlated_subqueries * 12 := rfl

/-- **C7.**  For every SQL text whose (normalized) join scan finds
exactly six join clauses with a full cross-product join present, and
whose filter clause contains a correlated subquery (the correlated
pattern matches at least once), `analyze_query` lands in one of the two
highest complexity bands (total score above 50, level `complex` or
`very_complex`) and flags both `many_joins` and `cross_join`. -/
theorem C7_six_joins_cross_correlated_is_complex (sql : String)
    (hj : (analyze_joins (normalize_sql sql)).total_joins = 6)
    (hc : (analyze_joins (normalize_sql sql)).has_cross_join = true)
    (hcorr : 1 ≤ (analyze_subqueries (normalize_sql sql) sql).correlated_subqueries) :
    50 < (analyze_query sql).total_complexity_score ∧
    ((analyze_query sql).complexity_level = "complex" ∨
      (analyze_query sql).complexity_level = "very_complex") ∧
    "many_joins" ∈ (analyze_query sql).risk_flags ∧
    "cross_join" ∈ (analyze_query sql).risk_flags := by
  have hjs : 39 ≤ (analyze_joins (normalize_sql sql)).join_complexity_score := by
    rw [join_score_eq, hj]
    by_cases hs : (analyze_joins (normalize_sql sql)).has_self_join
    · rw [if_pos hs]
      omega
    · rw [if_neg hs]
      omega
  have hss : 12 ≤ (analyze_subqueries (normalize_sql sql) sql).subquery_complexity_score := by
    rw [subq_score_eq]
    omega
  have htot : 50 < (analyze_query sql).total_complexity_score := by
    rw [analyze_query_total]
    omega
  refine ⟨htot, ?_, ?_, ?_⟩
  · rw [analyze_query_level]
    unfold classify_complexity
    rw [if_neg (by omega), if_neg (by omega)]
    by_cases h80 : (analyze_query sql).total_complexity_score ≤ 80
    · left
      rw [if_pos h80]
    · right
      rw [if_neg h80]
  · rw [analyze_query_flags]
    unfold identify_risk_flags
    rw [hj]
    simp
  · rw [analyze_query_flags]
    unfold identify_risk_flags
    rw [hc]
    simp

set_option maxRecDepth 40000 in
/-- Witness for C7 at the concrete example query. -/
theorem C7_witness :
    50 < (analyze_query c7Sql).total_complexity_score ∧
    ((analyze_query c7Sql).complexity_level = "complex" ∨
      (analyze_query c7Sql).complexity_level = "very_complex") ∧
    "many_joins" ∈ (analyze_query c7Sql).risk_flags ∧
    "cross_join" ∈ (analyze_query c7Sql).risk_flags :=
  C7_six_joins_cross_correlated_is_complex c7Sql (by decide) (by decide)
    (by decide)

/-- Counterexample for C8 as stated: the promoted `customers` reference
carries confidence `"high"`, not `"medium"` — the active-database
promotion happens *before* the confidence branch, so the promoted
reference takes the explicit-qualifier branch. -/
theorem C8_counterexample :
    (extract_databases_and_schemas c8Sql).source_tables.map
        (fun r => r.confidence) = ["high"] ∧
    (extract_databases_and_schemas c8Sql).source_tables.map
        (fun r => r.confidence) ≠ ["medium"] := by
  constructor
  · decide
  · decide

/-- **C8 (amended).**  For `USE sales;` followed by
`SELECT * FROM customers`, `extract_databases_and_schemas` returns
active database `sales`, and the `customers` reference is promoted to a
qualified reference with database `sales` and table `customers` — it
appears in `qualified_tables` and not in `unqualified_tables` — but
with confidence `"high"` (the promotion runs before the confidence
branches, so a reference resolved from the active-database context gets
the explicit-qualifier confidence, not `"medium"`). -/
theorem C8_use_statement_promotes_reference :
    (extract_databases_and_schemas c8Sql).active_database = some "sales" ∧
    (extract_databases_and_schemas c8Sql).qualified_tables =
      [⟨"customers", some "sales", none, "customers"⟩] ∧
    (extract_databases_and_schemas c8Sql).unqualified_tables = [] ∧
    (extract_databases_and_schemas c8Sql).source_tables =
      [⟨"customers", some "sales", none, "customers", "SELECT", 2, "high",
        false⟩] := by
  refine ⟨?_, ?_, ?_, ?_⟩ <;> decide

end CldMigrate
